import Mathlib

/-!
Verification of the session/response reconciliation and routing core of the
niblr agentic service (FastAPI layer under `src/api/src/`).

The Python functions are shallowly embedded over an explicit model of Python
values (`PyVal`).  Dictionaries are insertion-ordered association lists,
Python truthiness is modelled by `pyTruthy`, and Python exceptions are
modelled with `Except PyErr`.  JSON numbers are modelled as integers
(`json.loads` fragments exercised by the verified properties contain no
fractional literals); strings are modelled as lists of characters.
-/

namespace Niblr

/-- A Python character string, modelled as a list of characters. -/
abbrev Str := List Char

/- Model of a Python value as produced by `json.loads` / passed around the
event pipeline.  `PyArr` and `PyDict` are unrolled list types so that all
functions below are plain structural recursions. -/
mutual
inductive PyVal : Type where
  | vnull : PyVal
  | vbool : Bool → PyVal
  | vint : Int → PyVal
  | vstr : Str → PyVal
  | vlist : PyArr → PyVal
  | vdict : PyDict → PyVal
  deriving DecidableEq

inductive PyArr : Type where
  | nil : PyArr
  | cons : PyVal → PyArr → PyArr
  deriving DecidableEq

inductive PyDict : Type where
  | nil : PyDict
  | cons : Str → PyVal → PyDict → PyDict
  deriving DecidableEq
end

namespace PyArr

/-- Build a `PyArr` from a Lean list. -/
def ofList : List PyVal → PyArr
  | [] => .nil
  | v :: t => .cons v (ofList t)

/-- Convert back to a Lean list. -/
def toList : PyArr → List PyVal
  | .nil => []
  | .cons v t => v :: toList t

/-- Length of a Python list. -/
def length : PyArr → Nat
  | .nil => 0
  | .cons _ t => length t + 1

end PyArr

namespace PyDict

/-- Build a `PyDict` from a Lean association list (no duplicate handling:
used only for literals with distinct keys). -/
def ofList : List (Str × PyVal) → PyDict
  | [] => .nil
  | (k, v) :: t => .cons k v (ofList t)

/-- `d.get(k)` without a default: `some v` if the key is present. -/
def lookup : PyDict → Str → Option PyVal
  | .nil, _ => none
  | .cons k v t, key => if k = key then some v else lookup t key

/-- `k in d`. -/
def hasKey (d : PyDict) (key : Str) : Bool :=
  (d.lookup key).isSome

/-- `d[k] = v` with Python semantics: an existing key keeps its position and
gets the new value, otherwise the pair is appended. -/
def insert : PyDict → Str → PyVal → PyDict
  | .nil, key, val => .cons key val .nil
  | .cons k v t, key, val =>
      if k = key then .cons k val t else .cons k v (insert t key val)

/-- Number of entries. -/
def length : PyDict → Nat
  | .nil => 0
  | .cons _ _ t => length t + 1

end PyDict

/-- Python truthiness of a value (`bool(v)`). -/
def pyTruthy : PyVal → Bool
  | .vnull => false
  | .vbool b => b
  | .vint n => n ≠ 0
  | .vstr s => s ≠ []
  | .vlist a => a != .nil
  | .vdict d => d != .nil

/-- Truthiness of an optional value, where `none` models Python `None`
(used for variables that hold either `None` or a value). -/
def optTruthy : Option PyVal → Bool
  | none => false
  | some v => pyTruthy v

/-- The opening-brace character, written via its code point. -/
def lbrace : Char := Char.ofNat 123

/-- The closing-brace character, written via its code point. -/
def rbrace : Char := Char.ofNat 125

/-- Characters removed by Python's `str.strip()` (ASCII whitespace; the
inputs handled by the pipeline are ASCII-spaced). -/
def isPySpace (c : Char) : Bool :=
  c = ' ' || c = '\t' || c = '\n' || c = '\r' ||
  c = Char.ofNat 11 || c = Char.ofNat 12

/-- Python `s.strip()`. -/
def pyStrip (s : Str) : Str :=
  ((s.dropWhile isPySpace).reverse.dropWhile isPySpace).reverse

/-- Python `s.startswith(p)`. -/
def pyStartsWith (p s : Str) : Bool :=
  List.isPrefixOf p s

/-- Split `s` around the first occurrence of `pat`: `some (before, after)`
when `pat` occurs in `s` (leftmost occurrence, as `re` scanning does). -/
def splitAtSub (pat : Str) : Str → Option (Str × Str)
  | [] => if List.isPrefixOf pat ([] : Str) then some ([], []) else none
  | c :: t =>
    if List.isPrefixOf pat (c :: t) then some ([], (c :: t).drop pat.length)
    else
      match splitAtSub pat t with
      | some (pre, post) => some (c :: pre, post)
      | none => none

/-- Whitespace accepted between JSON tokens by `json.loads`. -/
def jsonWs (c : Char) : Bool :=
  c = ' ' || c = '\t' || c = '\n' || c = '\r'

/-- Skip inter-token whitespace. -/
def skipWs (s : Str) : Str := s.dropWhile jsonWs

/-- Hexadecimal digit value (code-point arithmetic: digits, then the
lowercase and uppercase letter ranges). -/
def hexVal (c : Char) : Option Nat :=
  if 47 < c.toNat && c.toNat < 58 then some (c.toNat - 48)
  else if 96 < c.toNat && c.toNat < 103 then some (c.toNat - 87)
  else if 64 < c.toNat && c.toNat < 71 then some (c.toNat - 55)
  else none

/-- Parse the body of a JSON string after the opening quote, following the
strict `json.loads` rules: control characters must be escaped, only the
standard escapes are accepted, `\uXXXX` pairs of surrogates are combined
(lone surrogates, which Lean characters cannot carry, are rejected). -/
def parseStringBody : Nat → Str → Option (Str × Str)
  | 0, _ => none
  | _ + 1, [] => none
  | fuel + 1, c :: t =>
    if c = '"' then some ([], t)
    else if c = '\\' then
      match t with
      | [] => none
      | e :: t2 =>
        let simpleEsc : Option Char :=
          if e = '"' then some '"'
          else if e = '\\' then some '\\'
          else if e = '/' then some '/'
          else if e = 'b' then some (Char.ofNat 8)
          else if e = 'f' then some (Char.ofNat 12)
          else if e = 'n' then some '\n'
          else if e = 'r' then some '\r'
          else if e = 't' then some '\t'
          else none
        match simpleEsc with
        | some ch =>
          match parseStringBody fuel t2 with
          | some (rest, rem) => some (ch :: rest, rem)
          | none => none
        | none =>
          if e = 'u' then
            match t2 with
            | h1 :: h2 :: h3 :: h4 :: t3 =>
              match hexVal h1, hexVal h2, hexVal h3, hexVal h4 with
              | some a, some b, some cc, some d =>
                let n := ((a * 16 + b) * 16 + cc) * 16 + d
                if 0xD800 ≤ n && n ≤ 0xDBFF then
                  match t3 with
                  | '\\' :: 'u' :: g1 :: g2 :: g3 :: g4 :: t4 =>
                    match hexVal g1, hexVal g2, hexVal g3, hexVal g4 with
                    | some a2, some b2, some c2, some d2 =>
                      let m := ((a2 * 16 + b2) * 16 + c2) * 16 + d2
                      if 0xDC00 ≤ m && m ≤ 0xDFFF then
                        let cp := 0x10000 + (n - 0xD800) * 0x400 + (m - 0xDC00)
                        match parseStringBody fuel t4 with
                        | some (rest, rem) => some (Char.ofNat cp :: rest, rem)
                        | none => none
                      else none
                    | _, _, _, _ => none
                  | _ => none
                else if 0xDC00 ≤ n && n ≤ 0xDFFF then none
                else
                  match parseStringBody fuel t3 with
                  | some (rest, rem) => some (Char.ofNat n :: rest, rem)
                  | none => none
              | _, _, _, _ => none
            | _ => none
          else none
    else if c.toNat < 0x20 then none
    else
      match parseStringBody fuel t with
      | some (rest, rem) => some (c :: rest, rem)
      | none => none

/-- Digits prefix. -/
def takeDigits (s : Str) : Str × Str :=
  (s.takeWhile Char.isDigit, s.dropWhile Char.isDigit)

/-- Decimal value of a digit string. -/
def digitsToNat (s : Str) : Nat :=
  s.foldl (fun acc c => 10 * acc + (c.toNat - 48)) 0

/-- Parse a JSON integer literal (`-? (0 | [1-9][0-9]*)`).  Fractional and
exponent literals, which Python would parse as floats, are not modelled:
the parser rejects them (none of the verified properties involve
non-integer numbers). -/
def parseIntLit (s : Str) : Option (Int × Str) :=
  let (neg, s1) : Bool × Str :=
    match s with
    | '-' :: t => (true, t)
    | _ => (false, s)
  match takeDigits s1 with
  | ([], _) => none
  | (ds, rest) =>
    if ds.length > 1 && ds.head? = some '0' then none
    else
      match rest with
      | '.' :: _ => none
      | 'e' :: _ => none
      | 'E' :: _ => none
      | _ =>
        let n : Int := Int.ofNat (digitsToNat ds)
        some (if neg then -n else n, rest)

/- Recursive-descent model of `json.loads` (strict mode, the default used by
the repository).  The functions are fueled so that every definition is a
plain structural recursion on `Nat` and evaluates definitionally. -/
mutual

/-- Parse one JSON value, skipping leading inter-token whitespace. -/
def parseValue : Nat → Str → Option (PyVal × Str)
  | 0, _ => none
  | fuel + 1, s0 =>
    let s := skipWs s0
    match s with
    | [] => none
    | c :: t =>
      if c = '"' then
        match parseStringBody (t.length + 1) t with
        | some (str, rem) => some (.vstr str, rem)
        | none => none
      else if c = lbrace then parseObjOpen fuel t
      else if c = '[' then parseArrOpen fuel t
      else if List.isPrefixOf "null".data s then some (.vnull, s.drop 4)
      else if List.isPrefixOf "true".data s then some (.vbool true, s.drop 4)
      else if List.isPrefixOf "false".data s then some (.vbool false, s.drop 5)
      else
        match parseIntLit s with
        | some (n, rem) => some (.vint n, rem)
        | none => none

/-- After `[`: empty array or element list. -/
def parseArrOpen : Nat → Str → Option (PyVal × Str)
  | 0, _ => none
  | fuel + 1, s0 =>
    let s := skipWs s0
    match s with
    | ']' :: t => some (.vlist .nil, t)
    | _ => parseArrElems fuel s []

/-- Comma-separated array elements (accumulated in reverse). -/
def parseArrElems : Nat → Str → List PyVal → Option (PyVal × Str)
  | 0, _, _ => none
  | fuel + 1, s, acc =>
    match parseValue fuel s with
    | none => none
    | some (v, rest) =>
      match skipWs rest with
      | ']' :: t => some (.vlist (PyArr.ofList (v :: acc).reverse), t)
      | ',' :: t => parseArrElems fuel t (v :: acc)
      | _ => none

/-- After the opening brace: empty object or member list. -/
def parseObjOpen : Nat → Str → Option (PyVal × Str)
  | 0, _ => none
  | fuel + 1, s0 =>
    let s := skipWs s0
    match s with
    | c :: t =>
      if c = rbrace then some (.vdict .nil, t) else parseObjMembers fuel s .nil
    | [] => none

/-- Comma-separated object members; duplicate keys follow Python semantics
(the last occurrence wins but the key keeps its first position). -/
def parseObjMembers : Nat → Str → PyDict → Option (PyVal × Str)
  | 0, _, _ => none
  | fuel + 1, s0, acc =>
    match skipWs s0 with
    | '"' :: t =>
      match parseStringBody (t.length + 1) t with
      | some (key, rest) =>
        match skipWs rest with
        | ':' :: t2 =>
          match parseValue fuel t2 with
          | some (v, rest2) =>
            let acc2 := acc.insert key v
            match skipWs rest2 with
            | c :: t3 =>
              if c = rbrace then some (.vdict acc2, t3)
              else if c = ',' then parseObjMembers fuel t3 acc2
              else none
            | [] => none
          | none => none
        | _ => none
      | none => none
    | _ => none

end

/-- Model of `json.loads`: parse one value and require only whitespace to
remain (Python raises `Extra data` otherwise, modelled as `none`). -/
def jsonParse (s : Str) : Option PyVal :=
  match parseValue (4 * (s.length + 4)) s with
  | some (v, rest) => if skipWs rest = [] then some v else none
  | none => none

/-- Lowercase hexadecimal digit. -/
def hexDigit (n : Nat) : Char :=
  Char.ofNat (if n < 10 then n + 48 else n + 87)

/-- Four-digit lowercase hex rendering used by `\uXXXX` escapes. -/
def hex4 (n : Nat) : Str :=
  [hexDigit (n / 4096 % 16), hexDigit (n / 256 % 16),
   hexDigit (n / 16 % 16), hexDigit (n % 16)]

/-- Escape one character the way `json.dumps` (with the default
`ensure_ascii=True`) does. -/
def escChar (c : Char) : Str :=
  if c = '"' then ['\\', '"']
  else if c = '\\' then ['\\', '\\']
  else if c = '\n' then ['\\', 'n']
  else if c = '\r' then ['\\', 'r']
  else if c = '\t' then ['\\', 't']
  else if c = Char.ofNat 8 then ['\\', 'b']
  else if c = Char.ofNat 12 then ['\\', 'f']
  else if c.toNat < 0x20 || c.toNat > 0x7E then
    if c.toNat > 0xFFFF then
      let v := c.toNat - 0x10000
      '\\' :: 'u' :: hex4 (0xD800 + v / 0x400) ++ '\\' :: 'u' :: hex4 (0xDC00 + v % 0x400)
    else '\\' :: 'u' :: hex4 c.toNat
  else [c]

/-- `json.dumps` rendering of a string literal. -/
def dumpsString (s : Str) : Str :=
  '"' :: s.foldr (fun c acc => escChar c ++ acc) ['"']

/-- Indentation prefix for `indent=2`. -/
def indentSp (depth : Nat) : Str :=
  List.replicate (2 * depth) ' '

/- Model of `json.dumps(v, indent=2)` (default separators `(",", ": ")`
under an indent, default `ensure_ascii`). -/
mutual

/-- Serialize a value at the given indentation depth. -/
def dumpsVal : Nat → PyVal → Str
  | _, .vnull => "null".data
  | _, .vbool true => "true".data
  | _, .vbool false => "false".data
  | _, .vint n => (toString n).data
  | _, .vstr s => dumpsString s
  | _, .vlist .nil => "[]".data
  | d, .vlist (.cons v t) =>
      '[' :: '\n' :: (indentSp (d + 1) ++ dumpsVal (d + 1) v ++
        dumpsArrRest (d + 1) t ++ '\n' :: (indentSp d ++ [']']))
  | _, .vdict .nil => [lbrace, rbrace]
  | d, .vdict (.cons k v t) =>
      lbrace :: '\n' :: (indentSp (d + 1) ++ dumpsString k ++ ':' :: ' ' ::
        (dumpsVal (d + 1) v ++ dumpsDictRest (d + 1) t ++
         '\n' :: (indentSp d ++ [rbrace])))

/-- Remaining array elements. -/
def dumpsArrRest : Nat → PyArr → Str
  | _, .nil => []
  | d, .cons v t => ',' :: '\n' :: (indentSp d ++ dumpsVal d v ++ dumpsArrRest d t)

/-- Remaining object members. -/
def dumpsDictRest : Nat → PyDict → Str
  | _, .nil => []
  | d, .cons k v t =>
      ',' :: '\n' :: (indentSp d ++ dumpsString k ++ ':' :: ' ' ::
        (dumpsVal d v ++ dumpsDictRest d t))

end

/-- `json.dumps(v, indent=2)`. -/
def jsonDumps2 (v : PyVal) : Str := dumpsVal 0 v

/-! ### Structured-Payload Extractor (`src/api/src/utils.py`, `extract_json_from_text`) -/

/-- The balanced-brace scan of `extract_json_from_text`: locate the end
index (exclusive) of the first complete brace-balanced prefix, honouring
string quoting and backslash escaping exactly as the Python loop does
(backslashes toggle escape state even outside strings, quotes toggle string
state unconditionally when not escaped). -/
def braceScanAux : Str → Nat → Int → Bool → Bool → Option Nat
  | [], _, _, _, _ => none
  | c :: t, i, count, inStr, esc =>
    if esc then braceScanAux t (i + 1) count inStr false
    else if c = '\\' then braceScanAux t (i + 1) count inStr true
    else if c = '"' then braceScanAux t (i + 1) count (!inStr) esc
    else if !inStr then
      if c = lbrace then braceScanAux t (i + 1) (count + 1) inStr esc
      else if c = rbrace then
        if count - 1 = 0 then some (i + 1)
        else braceScanAux t (i + 1) (count - 1) inStr esc
      else braceScanAux t (i + 1) count inStr esc
    else braceScanAux t (i + 1) count inStr esc

/-- `json_end` of the Python brace-counting loop (`none` when the loop ends
with `json_end == -1`). -/
def braceScan (s : Str) : Option Nat :=
  braceScanAux s 0 0 false false

/-- The recognised top-level discriminator keys:
`"properties" in parsed or "jobs" in parsed`. -/
def hasDiscriminator (d : PyDict) : Bool :=
  d.hasKey "properties".data || d.hasKey "jobs".data

/-- One attempt of `json.loads` + `isinstance(parsed, dict)` + key check:
`some` only when the text parses to a mapping holding either key. -/
def acceptCandidate (s : Str) : Option PyVal :=
  match jsonParse s with
  | some (.vdict d) => if hasDiscriminator d then some (.vdict d) else none
  | _ => none

/-- The three-backtick fence token. -/
def fenceTok : Str := "```".data

/-- Model of `re.findall(open + close-fence pattern, text, re.DOTALL)` for
the two patterns of `extract_json_from_text`: each match captures the text
between the opening token and the next closing fence, whitespace-trimmed
(the lazy `(.*?)` bounded by `\s*` groups); scanning resumes after the
closing fence.  Structural on the suffix returned by `splitAtSub`, driven
by a fuel argument bounded by the text length. -/
def findFencedAux (openTok : Str) : Nat → Str → List Str
  | 0, _ => []
  | fuel + 1, s =>
    match splitAtSub openTok s with
    | none => []
    | some (_, afterOpen) =>
      match splitAtSub fenceTok afterOpen with
      | none => []
      | some (inner, afterClose) =>
        pyStrip inner :: findFencedAux openTok fuel afterClose

/-- All captures of the fenced-block pattern with the given opening token. -/
def findFenced (openTok : Str) (s : Str) : List Str :=
  findFencedAux openTok (s.length + 1) s

/-- Scan candidate code-block captures in order: skip captures that do not
start with an opening brace; run the balanced-brace scan; accept the first
prefix that parses to a mapping with a discriminator key
(`continue` on decode failure or failed key check). -/
def scanCandidates : List Str → Option PyVal
  | [] => none
  | m :: rest =>
    if pyStartsWith [lbrace] (pyStrip m) then
      match braceScan (pyStrip m) with
      | some jsonEnd =>
        match acceptCandidate ((pyStrip m).take jsonEnd) with
        | some v => some v
        | none => scanCandidates rest
      | none => scanCandidates rest
    else scanCandidates rest

/-- `extract_json_from_text(text)`: whole-text parse first, then fenced
code blocks (the ```` ```json ```` pattern before the generic ```` ``` ````
pattern), returning `none` when nothing qualifies. -/
def extract_json_from_text (text : Str) : Option PyVal :=
  if text = [] || pyStrip text = [] then none
  else
    match acceptCandidate (pyStrip text) with
    | some v => some v
    | none =>
      match scanCandidates (findFenced ("```json".data) text) with
      | some v => some v
      | none => scanCandidates (findFenced fenceTok text)

/-! ### Python runtime helpers used by the response pipeline -/

/-- Python exceptions raised by the embedded code. -/
inductive PyErr : Type where
  | httpExc : Nat → Str → PyErr
  | unboundLocal : Str → PyErr
  | attrError : Str → PyErr
  | typeError : PyErr
  deriving DecidableEq

/-- `str(e)` for the exceptions above (`starlette.HTTPException.__str__`
renders `"<status>: <detail>"`). -/
def pyErrStr : PyErr → Str
  | .httpExc st d => (toString st).data ++ ": ".data ++ d
  | .unboundLocal n =>
      "local variable '".data ++ n ++ "' referenced before assignment".data
  | .attrError n => "object has no attribute '".data ++ n ++ "'".data
  | .typeError => "object is not iterable".data

/- Python `==` (`pyEqV`): numeric cross-equality between bools and ints,
order-insensitive dictionary comparison, element-wise lists. -/
mutual

/-- Python value equality. -/
def pyEqV : PyVal → PyVal → Bool
  | .vnull, .vnull => true
  | .vbool x, .vbool y => x = y
  | .vbool x, .vint m => (if x then (1 : Int) else 0) = m
  | .vint n, .vbool y => n = (if y then (1 : Int) else 0)
  | .vint n, .vint m => n = m
  | .vstr s, .vstr t => s = t
  | .vlist xs, .vlist ys => pyEqA xs ys
  | .vdict d1, .vdict d2 => PyDict.length d1 = PyDict.length d2 && pyEqD d1 d2
  | _, _ => false

/-- Element-wise list equality. -/
def pyEqA : PyArr → PyArr → Bool
  | .nil, .nil => true
  | .cons v t, .cons w u => pyEqV v w && pyEqA t u
  | _, _ => false

/-- One-sided dictionary inclusion (adequate together with the length
check, the dictionaries in play having unique keys). -/
def pyEqD : PyDict → PyDict → Bool
  | .nil, _ => true
  | .cons k v t, d2 =>
    (match d2.lookup k with
     | some w => pyEqV v w
     | none => false) && pyEqD t d2

end

/-- Python `==` where either side may be `None` (modelled by `none`). -/
def pyEqOpt (a b : Option PyVal) : Bool :=
  pyEqV (a.getD .vnull) (b.getD .vnull)

/-- Lexicographic string order on code points (used by `pformat`'s key
sorting). -/
def strLe : Str → Str → Bool
  | a :: s, b :: t =>
    if a.toNat = b.toNat then strLe s t else decide (a.toNat < b.toNat)
  | [], _ => true
  | _, _ => false

/-- Insertion sort of dictionary fields by key. -/
def sortFieldsAux (k : Str) (v : PyVal) : List (Str × PyVal) → List (Str × PyVal)
  | [] => [(k, v)]
  | (k2, v2) :: t =>
    if strLe k k2 then (k, v) :: (k2, v2) :: t
    else (k2, v2) :: sortFieldsAux k v t

/-- Dictionary fields sorted by key. -/
def sortFields : PyDict → List (Str × PyVal)
  | .nil => []
  | .cons k v t => sortFieldsAux k v (sortFields t)

/-- Escaping used inside a single-quoted Python `repr` string. -/
def reprEsc (c : Char) : Str :=
  if c = '\\' then ['\\', '\\']
  else if c = Char.ofNat 39 then ['\\', Char.ofNat 39]
  else if c = '\n' then ['\\', 'n']
  else if c = '\r' then ['\\', 'r']
  else if c = '\t' then ['\\', 't']
  else if c.toNat < 0x20 then '\\' :: 'x' :: [hexDigit (c.toNat / 16), hexDigit (c.toNat % 16)]
  else [c]

/-- `repr` of a string (modelled with single quotes throughout). -/
def reprString (s : Str) : Str :=
  Char.ofNat 39 :: s.foldr (fun c acc => reprEsc c ++ acc) [Char.ofNat 39]

/- Nesting depth of a value, used to bound the fuel of renderers whose
recursion pattern (key-sorted traversal) is not structural. -/
mutual

/-- Depth of a value. -/
def pyDepthV : PyVal → Nat
  | .vlist a => pyDepthA a + 1
  | .vdict d => pyDepthD d + 1
  | _ => 1

/-- Depth bound over list elements. -/
def pyDepthA : PyArr → Nat
  | .nil => 0
  | .cons v t => max (pyDepthV v) (pyDepthA t)

/-- Depth bound over dictionary values. -/
def pyDepthD : PyDict → Nat
  | .nil => 0
  | .cons _ v t => max (pyDepthV v) (pyDepthD t)

end

/-- `repr`-style rendering of a value with dictionary keys sorted, as
`pprint.pformat(part, indent=2, width=80)` renders the small single-line parts
reaching the unknown-part diagnostic (`sort_dicts=True`); fueled by depth. -/
def pyReprVF : Nat → PyVal → Str
  | 0, _ => []
  | _ + 1, .vnull => "None".data
  | _ + 1, .vbool true => "True".data
  | _ + 1, .vbool false => "False".data
  | _ + 1, .vint n => (toString n).data
  | _ + 1, .vstr s => reprString s
  | fuel + 1, .vlist a =>
      '[' :: (List.intercalate (", ".data) ((a.toList).map (pyReprVF fuel)) ++ [']'])
  | fuel + 1, .vdict d =>
      lbrace :: (List.intercalate (", ".data)
        ((sortFields d).map fun kv =>
          reprString kv.1 ++ ':' :: ' ' :: pyReprVF fuel kv.2) ++ [rbrace])

/-- `repr` of a value. -/
def pyReprV (v : PyVal) : Str := pyReprVF (pyDepthV v) v

/-- `str(v)` as used in f-string interpolation. -/
def pyStr : PyVal → Str
  | .vstr s => s
  | v => pyReprV v

/-- Model of `pprint.pformat(v, indent=2, width=80)` for the small values
reaching the unknown-part diagnostic. -/
def pformatModel (v : PyVal) : Str := pyReprV v

/-- `s.replace("_", " ")` (single-character replacement). -/
def pyReplaceUnderscore (s : Str) : Str :=
  s.map fun c => if c = '_' then ' ' else c

/-- Python `str.title()`: a cased character is uppercased when the previous
character is not alphabetic, lowercased otherwise. -/
def pyTitleAux : Str → Bool → Str
  | [], _ => []
  | c :: t, prevAlpha =>
    if c.isAlpha then
      (if prevAlpha then c.toLower else c.toUpper) :: pyTitleAux t true
    else c :: pyTitleAux t false

/-- Python `s.title()`. -/
def pyTitle (s : Str) : Str := pyTitleAux s false

/-- `.strip()` call on an arbitrary value (`AttributeError` on non-strings,
the way Python fails when a non-string reaches a string method). -/
def asStr : PyVal → Except PyErr Str
  | .vstr s => .ok s
  | _ => .error (.attrError "strip".data)

/-! ### Artifact extractors and Event Normalizer (`src/api/src/utils.py`) -/

/-- `for x in v` over a container feeding an `isinstance(x, dict)` filter:
lists yield their elements; strings and dictionaries yield characters
resp. keys, none of which are dictionaries, so they contribute nothing;
non-iterable values raise `TypeError`. -/
def iterForDicts : PyVal → Except PyErr (List PyVal)
  | .vlist a => .ok a.toList
  | .vstr _ => .ok []
  | .vdict _ => .ok []
  | _ => .error .typeError

/-- The per-part text test shared by both artifact extractors:
`part.get("kind") == "text" and part.get("text")`, else
`part.get("text") and "kind" not in part`. -/
def partTextHit (pd : PyDict) : Option PyVal :=
  let kind := pd.lookup "kind".data
  let text := pd.lookup "text".data
  if pyEqOpt kind (some (.vstr "text".data)) && optTruthy text then text
  else if optTruthy text && !(pd.hasKey "kind".data) then text
  else none

/-- Collect the appended `texts` of `extract_text_from_artifacts` across
all artifacts (non-dictionary artifacts are skipped). -/
def collectArtifactTexts : List PyVal → Except PyErr (List PyVal)
  | [] => .ok []
  | a :: rest => do
    let hits ←
      match a with
      | .vdict ad => do
        let partsVal := (ad.lookup "parts".data).getD (.vlist .nil)
        let items ← iterForDicts partsVal
        pure (items.filterMap fun p =>
          match p with
          | .vdict pd => partTextHit pd
          | _ => none)
      | _ => pure []
    let more ← collectArtifactTexts rest
    pure (hits ++ more)

/-- `[t for t in texts if t and t.strip()]` (a non-string text raises when
`.strip()` is reached). -/
def filterStripTexts : List PyVal → Except PyErr (List Str)
  | [] => .ok []
  | t :: rest =>
    if pyTruthy t then do
      let s ← asStr t
      let more ← filterStripTexts rest
      pure (if pyStrip s ≠ ([] : Str) then s :: more else more)
    else filterStripTexts rest

/-- `extract_text_from_artifacts(event)`: descend `result.artifacts[].parts[]`,
collect every text part, and return the newline-join of the non-blank ones
(`None` when no text was collected; note that a collected-but-blank set
joins to the empty string). -/
def extract_text_from_artifacts (event : PyDict) : Except PyErr (Option Str) := do
  match event.lookup "result".data with
  | none => .ok none
  | some resultV =>
    if !pyTruthy resultV then .ok none
    else
      match resultV with
      | .vdict rd =>
        let artifacts := (rd.lookup "artifacts".data).getD (.vlist .nil)
        if !pyTruthy artifacts then .ok none
        else do
          let items ← iterForDicts artifacts
          let texts ← collectArtifactTexts items
          if texts = [] then pure none
          else do
            let strs ← filterStripTexts texts
            pure (some (List.intercalate ['\n'] strs))
      | _ => .error (.attrError "get".data)

/-- First matching artifact text of `extract_artifacts_from_task`
(the Python loop returns inside the first hit). -/
def firstTaskText : List PyVal → Except PyErr (Option PyVal)
  | [] => .ok none
  | a :: rest =>
    match a with
    | .vdict ad => do
      let partsVal := (ad.lookup "parts".data).getD (.vlist .nil)
      let items ← iterForDicts partsVal
      let hits := items.filterMap fun p =>
        match p with
        | .vdict pd => partTextHit pd
        | _ => none
      match hits.head? with
      | some t => pure (some t)
      | none => firstTaskText rest
    | _ => firstTaskText rest

/-- `extract_artifacts_from_task(task_obj)`: the first artifact text of a
Task object (`None` for non-dictionaries or missing artifacts).  The raw
part value is returned unvalidated, as in the source. -/
def extract_artifacts_from_task (task_obj : PyVal) : Except PyErr (Option PyVal) :=
  match task_obj with
  | .vdict td =>
    let artifacts := (td.lookup "artifacts".data).getD (.vlist .nil)
    if !pyTruthy artifacts then .ok none
    else do
      let items ← iterForDicts artifacts
      firstTaskText items
  | _ => .ok none

/-- Input shapes accepted by the Event Normalizer: an actual mapping, an
object exposing `model_dump()`, an object exposing `__dict__`, or anything
else. -/
inductive EventIn : Type where
  | asDict : PyDict → EventIn
  | withModelDump : PyDict → EventIn
  | withAttrs : PyDict → EventIn
  | other : EventIn
  deriving DecidableEq

/-- `convert_event_to_dict(event)`: mappings pass through unchanged,
dump-capable and attribute-bearing objects yield their mapping, and
anything else yields the empty-parts fallback. -/
def convert_event_to_dict : EventIn → PyDict
  | .asDict d => d
  | .withModelDump d => d
  | .withAttrs d => d
  | .other =>
      PyDict.ofList
        [("content".data, .vdict (PyDict.ofList [("parts".data, .vlist .nil)]))]

/-! ### Response Processor (`src/api/src/response_processor.py`) -/

/-- An API chat message (the dictionaries built by the pipeline; absent
optional keys are `none`). -/
structure Msg : Type where
  role : Str
  content : Str
  metadata : Option PyVal
  structured_data : Option PyVal
  timestamp : Option PyVal
  deriving DecidableEq

/-- `{"title": "Agent Response"}`. -/
def agentTitle : PyVal :=
  .vdict (.cons "title".data (.vstr "Agent Response".data) .nil)

/-- `{"title": "🔄 Delegating to Agent"}`. -/
def delegTitle : PyVal :=
  .vdict (.cons "title".data (.vstr "🔄 Delegating to Agent".data) .nil)

/-- `{"title": "🛠️ Tool Call"}`. -/
def toolTitle : PyVal :=
  .vdict (.cons "title".data (.vstr "🛠️ Tool Call".data) .nil)

/-- `create_agent_response(content, structured_data, metadata)`: default
metadata is attached when structured data exists or the content is not a
delegation/tool announcement; structured data is stored only when truthy. -/
def create_agent_response (content : Str) (structured_data : Option PyVal)
    (metadata : Option PyVal) : Msg :=
  let sdT := optTruthy structured_data
  let md :=
    if metadata = none && sdT then some agentTitle
    else if metadata = none && !pyStartsWith "🤖".data content &&
        !pyStartsWith "🛠️".data content then some agentTitle
    else metadata
  { role := "assistant".data, content := content, metadata := md,
    structured_data := if sdT then structured_data else none,
    timestamp := none }

/-- The `task_obj` / `result` computation of the suppressed
function-response branch.  `resVar` models the Python local `result`,
which is only bound by some paths and whose use while unbound raises
`UnboundLocalError` (the misindented membership test in the `"response"`
arm reads it unconditionally).  Returns the chosen task object together
with the updated `result` binding. -/
def computeTaskObj (frV : PyVal) (resVar : Option PyVal) :
    Except PyErr (Option PyVal × Option PyVal) :=
  match frV with
  | .vdict frd =>
    if frd.hasKey "artifacts".data || frd.hasKey "status".data then
      .ok (some frV, resVar)
    else if frd.hasKey "response".data then
      let respObj := (frd.lookup "response".data).getD (.vdict .nil)
      let resVar2 :=
        match respObj with
        | .vdict ro => some ((ro.lookup "result".data).getD (.vdict .nil))
        | _ => resVar
      match resVar2 with
      | none => .error (.unboundLocal "result".data)
      | some rv =>
        match rv with
        | .vdict rvd =>
          if rvd.hasKey "artifacts".data || rvd.hasKey "status".data then
            .ok (some rv, resVar2)
          else .ok (none, resVar2)
        | _ => .ok (none, resVar2)
    else if frd.hasKey "result".data then
      let rv := (frd.lookup "result".data).getD (.vdict .nil)
      let resVar2 := some rv
      match rv with
      | .vdict rvd =>
        if rvd.hasKey "artifacts".data || rvd.hasKey "status".data then
          .ok (some rv, resVar2)
        else .ok (none, resVar2)
      | _ => .ok (none, resVar2)
    else if frd.hasKey "root".data then
      let rootV := (frd.lookup "root".data).getD (.vdict .nil)
      match rootV with
      | .vdict rtd =>
        if rtd.hasKey "result".data then
          let rv := (rtd.lookup "result".data).getD (.vdict .nil)
          let resVar2 := some rv
          match rv with
          | .vdict rvd =>
            if rvd.hasKey "artifacts".data || rvd.hasKey "status".data then
              .ok (some rv, resVar2)
            else .ok (none, resVar2)
          | _ => .ok (none, resVar2)
        else if rtd.hasKey "artifacts".data || rtd.hasKey "status".data then
          .ok (some rootV, resVar)
        else .ok (none, resVar)
      | _ => .ok (none, resVar)
    else .ok (none, resVar)
  | _ => .ok (none, resVar)

/-- The delegation announcement built for a `send_task` call with the
given arguments. -/
def delegationMsg (ad : PyDict) : Msg :=
  { role := "assistant".data,
    content := "🤖 **".data ++
      pyStr ((ad.lookup "agent_name".data).getD (.vstr "Unknown Agent".data)) ++
      "**\n\n".data ++ pyStr ((ad.lookup "task".data).getD (.vstr [])),
    metadata := some delegTitle, structured_data := none, timestamp := none }

/-- The "tool call in progress" announcement for a non-delegation call. -/
def toolMsg (ns : Str) : Msg :=
  { role := "assistant".data,
    content := "🛠️ Calling ".data ++ pyTitle (pyReplaceUnderscore ns) ++
      "...".data,
    metadata := some toolTitle, structured_data := none, timestamp := none }

/-- The diagnostic message for an unrecognised part shape. -/
def unknownMsg (p : PyVal) : Msg :=
  { role := "assistant".data,
    content := "Unknown agent response part:\n\n```python\n".data ++
      pformatModel p ++ "\n```".data,
    metadata := none, structured_data := none, timestamp := none }

/-- One iteration of the `content.parts` loop of `process_agent_response`:
given the part, the `skip_next_response` flag, and the `result` local
binding, produce the emitted messages and the updated loop state. -/
def partStep (p : PyVal) (skip : Bool) (resVar : Option PyVal) :
    Except PyErr (List Msg × Bool × Option PyVal) :=
  match p with
  | .vdict pd =>
    if optTruthy (pd.lookup "function_call".data) then
      match (pd.lookup "function_call".data).getD .vnull with
      | .vdict fcd =>
        if pyEqV ((fcd.lookup "name".data).getD (.vstr []))
            (.vstr "send_task".data) then
          match (fcd.lookup "args".data).getD (.vdict .nil) with
          | .vdict ad => .ok ([delegationMsg ad], true, resVar)
          | _ => .error (.attrError "get".data)
        else
          match (fcd.lookup "name".data).getD (.vstr []) with
          | .vstr ns => .ok ([toolMsg ns], skip, resVar)
          | _ => .error (.attrError "replace".data)
      | _ => .error (.attrError "get".data)
    else if optTruthy (pd.lookup "function_response".data) then
      if skip then do
        let frV := (pd.lookup "function_response".data).getD (.vdict .nil)
        let (taskObj, resVar2) ← computeTaskObj frV resVar
        match taskObj with
        | some t =>
          if pyTruthy t then do
            let atO ← extract_artifacts_from_task t
            match atO with
            | some atV =>
              if pyTruthy atV then do
                let ats ← asStr atV
                let sd := extract_json_from_text ats
                .ok ([create_agent_response
                  (if optTruthy sd then jsonDumps2 (sd.getD .vnull) else ats)
                  sd none], false, resVar2)
              else .ok ([], false, resVar2)
            | none => .ok ([], false, resVar2)
          else .ok ([], false, resVar2)
        | none => .ok ([], false, resVar2)
      else .ok ([], skip, resVar)
    else if optTruthy (pd.lookup "text".data) then do
      let tcs ← asStr ((pd.lookup "text".data).getD (.vstr []))
      if pyStrip tcs ≠ ([] : Str) then
        let sd : Option PyVal :=
          match extract_json_from_text tcs with
          | some v => some v
          | none =>
            if pd.hasKey "structured_output".data then
              match pd.lookup "structured_output".data with
              | some (.vstr so) => jsonParse so
              | some v2 => some v2
              | none => none
            else none
        .ok ([create_agent_response
          (if optTruthy sd then jsonDumps2 (sd.getD .vnull) else tcs)
          sd none], skip, resVar)
      else .ok ([], skip, resVar)
    else .ok ([unknownMsg p], skip, resVar)
  | _ => .error (.attrError "get".data)

/-- The `content.parts` loop of `process_agent_response`: `skip` models the
`skip_next_response` flag, `resVar` the `result` local (see
`computeTaskObj`). -/
def processParts : List PyVal → Bool → Option PyVal → Except PyErr (List Msg)
  | [], _, _ => .ok []
  | p :: rest, skip, resVar => do
    let (ms, skip2, resVar2) ← partStep p skip resVar
    let more ← processParts rest skip2 resVar2
    pure (ms ++ more)

/-- The artifact message emitted ahead of the parts loop when the event
carries a truthy top-level `result.artifacts` text. -/
def artifactHeadMsgs (artO : Option Str) : List Msg :=
  match artO with
  | some atext =>
    if atext ≠ ([] : Str) then
      [create_agent_response
        (if optTruthy (extract_json_from_text atext) then
          jsonDumps2 ((extract_json_from_text atext).getD .vnull)
        else atext)
        (extract_json_from_text atext) none]
    else []
  | none => []

/-- The part of `process_agent_response` following the artifact
extraction: read `content.parts` and, when truthy, run the parts loop. -/
def processAgentTail (event : PyDict) (artO : Option Str) :
    Except PyErr (List Msg) :=
  match (event.lookup "content".data).getD (.vdict .nil) with
  | .vdict cd =>
    if !pyTruthy ((cd.lookup "parts".data).getD (.vlist .nil)) then
      pure (artifactHeadMsgs artO)
    else
      match (cd.lookup "parts".data).getD (.vlist .nil) with
      | .vlist pa => do
        let rest ← processParts pa.toList false none
        pure (artifactHeadMsgs artO ++ rest)
      | .vstr _ => .error (.attrError "get".data)
      | .vdict _ => .error (.attrError "get".data)
      | _ => .error .typeError
  | _ => .error (.attrError "get".data)

/-- `process_agent_response(event)`: optional top-level artifact message,
then the `content.parts` state machine. -/
def process_agent_response (event : PyDict) : Except PyErr (List Msg) := do
  let artifactsTextO ← extract_text_from_artifacts event
  processAgentTail event artifactsTextO

/-! ### History Reconstructor (`src/api/src/utils.py`,
`parse_session_info_to_messages`) -/

/-- Subtraction over event timestamps (`end - start`); the stored history
timestamps are numeric. -/
def pySub (a b : PyVal) : Except PyErr PyVal :=
  match a, b with
  | .vint n, .vint m => .ok (.vint (n - m))
  | _, _ => .error .typeError

/-- `round(x, 3)`: the integral timestamps of the model are unchanged. -/
def pyRound3 (v : PyVal) : Except PyErr PyVal :=
  match v with
  | .vint n => .ok (.vint n)
  | _ => .error .typeError

/-- Folding state of `parse_session_info_to_messages`. -/
structure PsiState : Type where
  msgs : List Msg
  firstTs : Option PyVal
  lastTs : Option PyVal
  usage : Option PyVal
  agentName : Option PyVal
  authorMeta : Option PyVal
  modelVersion : Option PyVal
  arStart : Option PyVal
  arEnd : Option PyVal
  artContent : Option Str
  artStructured : Option PyVal
  deriving DecidableEq

/-- Initial state. -/
def psiInit : PsiState :=
  { msgs := [], firstTs := none, lastTs := none, usage := none,
    agentName := none, authorMeta := none, modelVersion := none,
    arStart := none, arEnd := none, artContent := none, artStructured := none }

/-- Inner loop over one artifact's parts. -/
def psiArtifactParts (tsVal : Option PyVal) : List PyVal → PsiState → Except PyErr PsiState
  | [], st => .ok st
  | p :: rest, st =>
    match p with
    | .vdict pd =>
      match pd.lookup "text".data with
      | some tv =>
        if pyTruthy tv then do
          let ts ← asStr tv
          if pyStrip ts ≠ ([] : Str) then
            let st :=
              if st.arStart = none && optTruthy tsVal then
                { st with arStart := tsVal }
              else st
            let st :=
              if st.artContent = none then
                { st with artContent := some ts,
                          artStructured := extract_json_from_text ts }
              else st
            let st :=
              if optTruthy tsVal then { st with arEnd := tsVal } else st
            psiArtifactParts tsVal rest st
          else psiArtifactParts tsVal rest st
        else psiArtifactParts tsVal rest st
      | none => psiArtifactParts tsVal rest st
    | _ => psiArtifactParts tsVal rest st

/-- The nested artifact walk of step 2 of the per-part loop: collect the
agent name and the first artifact text found under
`functionResponse.response.result.artifacts`. -/
def psiArtifacts (tsVal : Option PyVal) : List PyVal → PsiState → Except PyErr PsiState
  | [], st => .ok st
  | a :: rest, st =>
    match a with
    | .vdict ad => do
      let nameV := ad.lookup "name".data
      let st :=
        if optTruthy nameV && !optTruthy st.agentName then
          { st with agentName := nameV }
        else st
      let partsVal := (ad.lookup "parts".data).getD (.vlist .nil)
      let items ← iterForDicts partsVal
      let st ← psiArtifactParts tsVal items st
      psiArtifacts tsVal rest st
    | _ => psiArtifacts tsVal rest st

/-- Per-part processing (steps 1–3 all run for every part); `tsRaw` is the
raw `event.get("timestamp")` stored on user messages, `tsVal` its
truthiness-filtered form used by the boundary checks. -/
def psiPart (role author : PyVal) (tsRaw tsVal : Option PyVal) (p : PyVal)
    (st : PsiState) : Except PyErr PsiState :=
  match p with
  | .vdict pd => do
    -- 1. user messages
    let st ←
      if pyEqV role (.vstr "user".data) && pyEqV author (.vstr "user".data) then
        match pd.lookup "text".data with
        | some tv =>
          if pyTruthy tv then do
            let ts ← asStr tv
            if pyStrip ts ≠ ([] : Str) then
              pure { st with msgs := st.msgs ++
                [{ role := "user".data, content := pyStrip ts,
                   metadata := none, structured_data := none,
                   timestamp := tsRaw }] }
            else pure st
          else pure st
        | none => pure st
      else pure st
    -- 2. functionResponse artifacts
    let st ←
      match pd.lookup "functionResponse".data with
      | some fr =>
        if pyTruthy fr then
          match fr with
          | .vdict frd =>
            match (frd.lookup "response".data).getD (.vdict .nil) with
            | .vdict rd =>
              match (rd.lookup "result".data).getD (.vdict .nil) with
              | .vdict resd => do
                let artifacts := (resd.lookup "artifacts".data).getD (.vlist .nil)
                let items ← iterForDicts artifacts
                psiArtifacts tsVal items st
              | _ => pure st
            | _ => pure st
          | _ => pure st
        else pure st
      | none => pure st
    -- 3. model-role text
    if pyEqV role (.vstr "model".data) && !pyEqV author (.vstr "user".data) then
      match pd.lookup "text".data with
      | some tv =>
        if pyTruthy tv then do
          let ts ← asStr tv
          if pyStrip ts ≠ ([] : Str) then
            let st :=
              if st.arStart = none && optTruthy tsVal then
                { st with arStart := tsVal }
              else st
            let sd := extract_json_from_text ts
            let msg : Msg :=
              { role := "assistant".data, content := pyStrip ts,
                metadata := none,
                structured_data := if optTruthy sd then sd else none,
                timestamp := none }
            let st := { st with msgs := st.msgs ++ [msg] }
            let st := if optTruthy tsVal then { st with arEnd := tsVal } else st
            pure { st with artContent := none, artStructured := none }
          else pure st
        else pure st
      | none => pure st
    else pure st
  | _ => .ok st

/-- The part loop of one event. -/
def psiParts (role author : PyVal) (tsRaw tsVal : Option PyVal) :
    List PyVal → PsiState → Except PyErr PsiState
  | [], st => .ok st
  | p :: rest, st => do
    let st ← psiPart role author tsRaw tsVal p st
    psiParts role author tsRaw tsVal rest st

/-- Per-event processing: header fields, timestamp tracking, metadata
collection, then the part loop. -/
def psiEvent (ev : PyVal) (st : PsiState) : Except PyErr PsiState :=
  match ev with
  | .vdict ed =>
    match (ed.lookup "content".data).getD (.vdict .nil) with
    | .vdict cd => do
      let partsVal := (cd.lookup "parts".data).getD (.vlist .nil)
      let role := (cd.lookup "role".data).getD (.vstr [])
      let author := (ed.lookup "author".data).getD (.vstr [])
      let tsRaw := ed.lookup "timestamp".data
      let tsVal := if optTruthy tsRaw then tsRaw else none
      let usage :=
        let um := (ed.lookup "usageMetadata".data).getD .vnull
        if pyTruthy um then um else (ed.lookup "usage_metadata".data).getD .vnull
      let modelVer :=
        let mv := (ed.lookup "modelVersion".data).getD .vnull
        if pyTruthy mv then mv else (ed.lookup "model_version".data).getD .vnull
      let st :=
        match tsVal with
        | some t =>
          { st with firstTs := if st.firstTs = none then some t else st.firstTs,
                    lastTs := some t }
        | none => st
      let st :=
        if !pyEqV author (.vstr "user".data) then
          let st :=
            if pyTruthy usage && !optTruthy st.usage then
              { st with usage := some usage }
            else st
          let st :=
            if pyTruthy author && !optTruthy st.authorMeta then
              { st with authorMeta := some author }
            else st
          if pyTruthy modelVer && !optTruthy st.modelVersion then
            { st with modelVersion := some modelVer }
          else st
        else st
      let items ← iterForDicts partsVal
      psiParts role author tsRaw tsVal items st
    | _ => .ok st
  | _ => .ok st

/-- The event loop. -/
def psiEvents : List PyVal → PsiState → Except PyErr PsiState
  | [], st => .ok st
  | e :: rest, st => do
    let st ← psiEvent e st
    psiEvents rest st

/-- Ordered metadata dictionary built from the collected values
(`None` entries removed, insertion order of the source dictionary kept). -/
def psiCleanMetadata (st : PsiState) (rt : Option PyVal) : PyDict :=
  let addIf (k : Str) (v : Option PyVal) (d : PyDict) : PyDict :=
    match v with
    | some w => d.insert k w
    | none => d
  addIf "response_time_seconds".data rt
    (addIf "model_version".data st.modelVersion
      (addIf "author".data st.authorMeta
        (addIf "agent_name".data st.agentName
          (addIf "usage_metadata".data st.usage .nil))))

/-- `parse_session_info_to_messages(session_info)`: rebuild the transcript
from a stored event log, with model-role text taking priority over the
artifact fallback, and the collected metadata copied onto every assistant
message. -/
def parse_session_info_to_messages (session_info : PyVal) : Except PyErr (List Msg) :=
  match session_info with
  | .vdict sd =>
    if !pyTruthy (PyVal.vdict sd) then .ok []
    else
      let events := (sd.lookup "events".data).getD (.vlist .nil)
      if !pyTruthy events then .ok []
      else
        match events with
        | .vlist evs => do
          let st ← psiEvents evs.toList psiInit
          let msgs :=
            match st.artContent with
            | some ac =>
              if ac ≠ ([] : Str) then
                st.msgs ++
                  [{ role := "assistant".data, content := ac,
                     metadata := none,
                     structured_data :=
                       if optTruthy st.artStructured then st.artStructured else none,
                     timestamp := none }]
              else st.msgs
            | none => st.msgs
          let rt ←
            if optTruthy st.arStart && optTruthy st.arEnd then do
              let d ← pySub (st.arEnd.getD .vnull) (st.arStart.getD .vnull)
              let r ← pyRound3 d
              pure (some r)
            else if optTruthy st.firstTs && optTruthy st.lastTs then do
              let d ← pySub (st.lastTs.getD .vnull) (st.firstTs.getD .vnull)
              let r ← pyRound3 d
              pure (some r)
            else pure none
          let cm := psiCleanMetadata st rt
          let msgs :=
            if pyTruthy (.vdict cm) then
              msgs.map fun m =>
                if m.role = "assistant".data then
                  { m with metadata := some (.vdict cm) }
                else m
            else msgs
          pure msgs
        | .vstr _ => .ok []
        | .vdict _ => .ok []
        | _ => .error .typeError
  | _ => .ok []

/-! ### Chat endpoint (`src/api/src/endpoints.py`, `chat`) -/

/-- `pat in s` for strings. -/
def strContains (pat s : Str) : Bool :=
  (splitAtSub pat s).isSome

/-- Python `s.rstrip()`. -/
def pyRstrip (s : Str) : Str :=
  (s.reverse.dropWhile isPySpace).reverse

/-- Session title derived from the first user message: the stripped message
when at most 50 characters; otherwise the first sentence when the period
lies within the first 50 characters; otherwise the first 50 characters
right-stripped plus an ellipsis. -/
def deriveTitle (message : Str) : Option Str :=
  if message ≠ ([] : Str) && pyStrip message ≠ ([] : Str) then
    let ms := pyStrip message
    if ms.length ≤ 50 then some ms
    else
      match List.findIdx? (fun c => c = '.') ms with
      | some i =>
        if 0 < i && i ≤ 50 then some (ms.take (i + 1))
        else some (pyRstrip (ms.take 50) ++ "...".data)
      | none => some (pyRstrip (ms.take 50) ++ "...".data)
  else none

/-- A local `sessions` row (`src/api/src/db_models.py`, `Session`). -/
structure SessionRow : Type where
  rowId : Nat
  user_id : Nat
  agent_session_id : Str
  title : Option Str
  last_activity : Nat
  deriving DecidableEq

/-- Environment of one chat request: the local session store, the remote
Agent capability's behaviour for this turn (the id a `create_session` call
returns, the event stream, the optional `get_session_state` attribute and
its outcome) and the current clock tick for `datetime.utcnow()`. -/
structure ChatWorld : Type where
  db : List SessionRow
  nextRowId : Nat
  remoteNewId : Str
  events : List EventIn
  hasGetSessionState : Bool
  sessionState : Except PyErr PyVal
  now : Nat

/-- The `except Exception` wrapper of the chat handler: any exception
escaping the body — the explicit 400 included, `HTTPException` being an
`Exception` — is replaced by a 500 whose detail embeds `str(e)`. -/
def wrap500 {α : Type} : Except PyErr α → Except PyErr α
  | .ok a => .ok a
  | .error e =>
      .error (.httpExc 500 ("Error processing request: ".data ++ pyErrStr e))

/-- Structured-data message harvested from an event's `state` field (the
`property_listings` / `job_listings` check inside the stream loop). -/
def eventStateMsgs (ed : PyDict) : List Msg :=
  let event_state := (ed.lookup "state".data).getD (.vdict .nil)
  if !pyTruthy event_state then []
  else
    let pl :=
      match event_state with
      | .vdict d => d.lookup "property_listings".data
      | _ => none
    let jl :=
      match event_state with
      | .vdict d => d.lookup "job_listings".data
      | _ => none
    if optTruthy pl || optTruthy jl then
      let sd0 := if optTruthy pl then pl.getD .vnull else jl.getD .vnull
      let sd :=
        match sd0 with
        | .vstr s =>
          (match jsonParse s with
           | some v => v
           | none => sd0)
        | _ => sd0
      match sd with
      | .vdict _ => [create_agent_response (jsonDumps2 sd) (some sd) none]
      | _ => []
    else []

/-- Per-event duplicate filter applied when a top-level artifact text
exists: keep metadata-bearing messages, and other messages only when their
content differs from the artifact text and from its parsed JSON. -/
def dedupAgainstArtifact (artifactsText : Str) : List Msg → List Msg
  | [] => []
  | r :: rest =>
    let content := pyStrip r.content
    if r.metadata ≠ none then r :: dedupAgainstArtifact artifactsText rest
    else if content ≠ ([] : Str) && content ≠ pyStrip artifactsText then
      match jsonParse content with
      | some loaded =>
        if !pyEqV loaded ((extract_json_from_text artifactsText).getD .vnull) then
          r :: dedupAgainstArtifact artifactsText rest
        else dedupAgainstArtifact artifactsText rest
      | none => r :: dedupAgainstArtifact artifactsText rest
    else dedupAgainstArtifact artifactsText rest

/-- The stream-draining loop of the chat handler. -/
def streamLoop : List EventIn → List Msg → Except PyErr (List Msg)
  | [], acc => .ok acc
  | ev :: rest, acc => do
    let ed := convert_event_to_dict ev
    let artO ← extract_text_from_artifacts ed
    let artText : Option Str :=
      match artO with
      | some a => if a ≠ ([] : Str) then some a else none
      | none => none
    let acc := acc ++
      (match artText with
       | some a =>
         let sd := extract_json_from_text a
         let content := if optTruthy sd then jsonDumps2 (sd.getD .vnull) else a
         [create_agent_response content sd none]
       | none => [])
    let acc := acc ++ eventStateMsgs ed
    let evResponses ← process_agent_response ed
    let acc := acc ++
      (match artText with
       | some a => dedupAgainstArtifact a evResponses
       | none => evResponses)
    streamLoop rest acc

/-- The post-stream `get_session_state` block, wrapped in a
`try/except: pass` — any failure leaves the message list unchanged. -/
def sessionStateBlock (hasGss : Bool) (gss : Except PyErr PyVal)
    (acc : List Msg) : List Msg :=
  if !hasGss then acc
  else
    match gss with
    | .error _ => acc
    | .ok st =>
      if !pyTruthy st then acc
      else
        match st with
        | .vdict sd2 =>
          let pl := sd2.lookup "property_listings".data
          let jl := sd2.lookup "job_listings".data
          if optTruthy pl || optTruthy jl then
            let sd0 := if optTruthy pl then pl.getD .vnull else jl.getD .vnull
            let sd :=
              match sd0 with
              | .vstr s =>
                (match jsonParse s with
                 | some v => v
                 | none => sd0)
              | _ => sd0
            match sd with
            | .vdict _ =>
              (acc.filter fun r =>
                r.metadata ≠ none || !pyStartsWith "Here are".data r.content) ++
              [create_agent_response (jsonDumps2 sd) (some sd) none]
            | _ => acc
          else acc
        | _ => acc

/-- The final filter-and-prioritise loop of the chat handler, threading the
`has_structured_response` flag. -/
def chatFilter : List Msg → Bool → List Msg
  | [], _ => []
  | r :: rest, hasSd =>
    let content := r.content
    if r.metadata ≠ none then r :: chatFilter rest hasSd
    else if optTruthy r.structured_data then r :: chatFilter rest true
    else if strContains [lbrace] content &&
        (strContains "\"properties\"".data content ||
         strContains "\"jobs\"".data content) then
      match extract_json_from_text content with
      | some sd =>
        let md := if !optTruthy r.metadata then some agentTitle else r.metadata
        let r2 : Msg :=
          { role := r.role, content := r.content, metadata := md,
            structured_data := some sd, timestamp := r.timestamp }
        r2 :: chatFilter rest true
      | none => r :: chatFilter rest hasSd
    else if 50 < (pyStrip content).length then r :: chatFilter rest hasSd
    else if !hasSd && 10 < (pyStrip content).length then r :: chatFilter rest hasSd
    else chatFilter rest hasSd

/-- The tail of the chat handler after the stream is drained: the
`get_session_state` block, the filter ("use filtered responses if we
filtered any out"), and the placeholder fallback for an empty list. -/
def chatFinalize (hasGss : Bool) (gss : Except PyErr PyVal)
    (all : List Msg) : List Msg :=
  let all := sessionStateBlock hasGss gss all
  let all2 := chatFilter all false
  let all := if all2 ≠ [] then all2 else all
  if all = [] then
    [create_agent_response "No response from agent".data none none]
  else all

/-- Everything inside the handler's `try` after session resolution: the
empty-message validation, stream drain, state block, filter, and the
placeholder fallback; the `except Exception` wrapper turns any escaping
exception into a 500. -/
def chatTurn (w : ChatWorld) (message : Str) (sid : Str) :
    Except PyErr (List Msg × Str) :=
  wrap500 (do
    if pyStrip message = ([] : Str) then
      Except.error (.httpExc 400 "Message cannot be empty".data)
    else do
      let all ← streamLoop w.events []
      pure (chatFinalize w.hasGetSessionState w.sessionState all, sid))

/-- Session resolution of the chat handler: a truthy caller-supplied id is
looked up by `(agent_session_id, user_id)`; an absent or empty id, or a
lookup miss, resolves to `none` (treated as "no session", never an
error). -/
def resolveSession (db : List SessionRow) (userId : Nat)
    (session_id : Option Str) : Option SessionRow :=
  match session_id with
  | some sid =>
    if sid ≠ ([] : Str) then
      db.find? fun r => r.agent_session_id == sid && r.user_id == userId
    else none
  | none => none

/-- `POST /api/chat` for an authenticated user: resolve or create the
session (bumping activity resp. persisting the new row with its derived
title), then run the turn.  Returns the HTTP outcome together with the
final session store and row counter; the store mutations are committed
before the message validation runs, exactly as in the handler. -/
def chat (w : ChatWorld) (userId : Nat) (message : Str)
    (session_id : Option Str) :
    Except PyErr (List Msg × Str) × List SessionRow × Nat :=
  match resolveSession w.db userId session_id with
  | some r =>
    let db2 := w.db.map fun x =>
      if x.rowId = r.rowId then { x with last_activity := w.now } else x
    (chatTurn w message r.agent_session_id, db2, w.nextRowId)
  | none =>
    let newRow : SessionRow :=
      { rowId := w.nextRowId, user_id := userId,
        agent_session_id := w.remoteNewId, title := deriveTitle message,
        last_activity := w.now }
    (chatTurn w message w.remoteNewId, w.db ++ [newRow], w.nextRowId + 1)

/-! ### Session deletion (`src/api/src/session_endpoints.py`,
`delete_session`) and catalog save (`src/api/src/catalog_endpoints.py`,
`create_catalog_item`) -/

/-- `DELETE /api/sessions/{session_id}`: look up the owned row (404 when
absent or owned by another user); attempt the remote deletion, swallowing
any error (`remoteFails` records whether the remote call raised — the
outcome does not depend on it); always delete the local row; the decorator
returns 204. -/
def delete_session (db : List SessionRow) (userId : Nat) (sid : Str)
    (_remoteFails : Bool) : Except PyErr Nat × List SessionRow :=
  match db.find? (fun r => r.agent_session_id == sid && r.user_id == userId) with
  | none => (.error (.httpExc 404 "Session not found".data), db)
  | some r =>
    let db2 := db.filter fun x => x.rowId ≠ r.rowId
    (.ok 204, db2)

/-- A `catalog_items` row (`src/api/src/db_models.py`, `CatalogItem`). -/
structure CatalogRow : Type where
  id : Nat
  user_id : Nat
  catalog_item_id : Str
  catalog_name : Str
  agent_name : Option Str
  source_message_id : Option Str
  session_id : Option Int
  deriving DecidableEq

/-- `POST /api/catalog`: insert the reference row.  The `CatalogItem`
schema declares no unique constraint over
`(user_id, catalog_item_id, catalog_name)` — its only constraints are the
primary key (auto-generated here) and non-null columns (enforced by the
types) — so the insert never raises `IntegrityError` for a duplicate
triple and the 409 handler is unreachable; the decorator returns 201 with
the created row. -/
def create_catalog_item (db : List CatalogRow) (nextId : Nat) (userId : Nat)
    (item_id cat_name : Str) (agent : Option Str) (srcMsg : Option Str)
    (sess : Option Int) : Except PyErr CatalogRow × List CatalogRow × Nat :=
  let row : CatalogRow :=
    { id := nextId, user_id := userId, catalog_item_id := item_id,
      catalog_name := cat_name, agent_name := agent,
      source_message_id := srcMsg, session_id := sess }
  (.ok row, db ++ [row], nextId + 1)

/-! ### Shared fixtures and helper lemmas -/

/-- An event dictionary holding only `content.parts`. -/
def mkPartsEvent (ps : List PyVal) : PyDict :=
  .cons "content".data
    (.vdict (.cons "parts".data (.vlist (PyArr.ofList ps)) .nil)) .nil

/-- A stream event carrying one plain text part. -/
def textEvent (t : Str) : PyDict :=
  mkPartsEvent [.vdict (.cons "text".data (.vstr t) .nil)]

/-- `{"properties": []}` as a value. -/
def propsObj : PyVal := .vdict (.cons "properties".data (.vlist .nil) .nil)

/-- Round-tripping a list through `PyArr`. -/
theorem PyArr.toList_ofList (l : List PyVal) : (PyArr.ofList l).toList = l := by
  induction l with
  | cons h t ih => simpa [PyArr.ofList, PyArr.toList] using ih
  | nil => rfl

/-- `Except.bind` against `pure` is the identity. -/
theorem exceptBindPure {α β : Type} (x : Except α β) : (x >>= pure) = x := by
  cases x <;> rfl

/-- Binding a successful `Except` applies the continuation. -/
theorem exceptBindOk {α β γ : Type} (x : β) (f : β → Except α γ) :
    (Except.ok x >>= f) = f x := rfl

/-- Binding a failed `Except` propagates the error. -/
theorem exceptBindErr {α β γ : Type} (e : α) (f : β → Except α γ) :
    (Except.error e >>= f) = .error e := rfl

/-! ### C4 -/

/-- A function-response part whose suppress flag is not set. -/
def c4part : PyDict :=
  .cons "function_response".data
    (.vdict (.cons "name".data (.vstr "get_weather".data) .nil)) .nil

/-- C4 counterexample: an event whose single part is a (truthy)
function-response, processed with the suppress flag unset, yields no
message at all — in particular no "tool result completed" announcement
exists; the branch has no un-suppressed arm. -/
theorem c4_function_response_counterexample :
    optTruthy (c4part.lookup "function_response".data) = true ∧
    process_agent_response (mkPartsEvent [.vdict c4part]) = .ok [] := by
  exact ⟨rfl, rfl⟩

/-- C4 amended: a part that is a truthy function-response (and not a
function-call) arriving while the suppress flag is unset produces no
message whatsoever — it is silently ignored, not announced. -/
theorem c4_function_response_amended (rd : PyDict) (frV : PyVal)
    (h1 : rd.lookup "function_call".data = none)
    (h2 : rd.lookup "function_response".data = some frV)
    (h3 : pyTruthy frV = true) :
    process_agent_response (mkPartsEvent [.vdict rd]) = .ok [] := by
  show (processParts (PyArr.ofList [PyVal.vdict rd]).toList false none >>=
      fun rest => pure ([] ++ rest)) = .ok []
  simp only [PyArr.toList_ofList, List.nil_append]
  have hps : partStep (.vdict rd) false none = .ok ([], false, none) := by
    simp [partStep, h1, h2, h3, optTruthy]
  simp [processParts, hps, exceptBindOk]

/-- C4 witness: the amended theorem applied to a concrete
function-response part. -/
theorem c4_function_response_amended_witness :
    process_agent_response (mkPartsEvent [.vdict (.cons "function_response".data
      (.vdict (.cons "id".data (.vint 7) .nil)) .nil)]) = .ok [] :=
  c4_function_response_amended
    (.cons "function_response".data (.vdict (.cons "id".data (.vint 7) .nil)) .nil)
    (.vdict (.cons "id".data (.vint 7) .nil)) rfl rfl (by decide)

/-! ### C5 -/

/-- A chat world with an empty stream and no stored sessions. -/
def c5world : ChatWorld :=
  { db := [], nextRowId := 1, remoteNewId := "s1".data, events := [],
    hasGetSessionState := false, sessionState := .ok .vnull, now := 0 }

/-- C5: the empty-message validation raises `HTTPException(400)` inside the
handler's `try`, and the blanket `except Exception` re-raises it as a 500
whose detail embeds the original `str(e)` — the endpoint therefore answers
500, not 400, to an empty message. -/
theorem c5_empty_message_bug :
    (chat c5world 1 " ".data none).1 =
      .error (.httpExc 500
        "Error processing request: 400: Message cannot be empty".data) := by
  rfl

/-! ### C7 -/

/-- C7 counterexample: a mapping input without a `content` key passes
through the Event Normalizer unchanged, so the output carries no
`content.parts` key at all, contradicting the claimed minimum guarantee. -/
theorem c7_normalizer_counterexample :
    convert_event_to_dict (.asDict PyDict.nil) = PyDict.nil ∧
    PyDict.lookup (convert_event_to_dict (.asDict PyDict.nil)) "content".data
      = none := by
  exact ⟨rfl, rfl⟩

/-- C7 amended: the Event Normalizer is total (never raises) and returns
the input's own mapping for mapping, dump-capable, and attribute-bearing
inputs — such outputs need not contain `content.parts`; only the
unrecoverable fallback guarantees a `content.parts` key, and there the
parts list is empty. -/
theorem c7_normalizer_amended :
    (∀ d : PyDict, convert_event_to_dict (.asDict d) = d ∧
      convert_event_to_dict (.withModelDump d) = d ∧
      convert_event_to_dict (.withAttrs d) = d) ∧
    PyDict.lookup (convert_event_to_dict .other) "content".data =
      some (.vdict (.cons "parts".data (.vlist .nil) .nil)) := by
  exact ⟨fun d => ⟨rfl, rfl, rfl⟩, rfl⟩

/-! ### C8 -/

/-- C8: deleting an owned session succeeds with 204 and removes the local
row no matter whether the remote deletion raised (`rf` is quantified and
the outcome does not depend on it); a missing or unowned session id yields
404 and leaves the store untouched. -/
theorem c8_delete_session (db : List SessionRow) (uid : Nat) (sid : Str)
    (rf : Bool) :
    (∀ r, db.find? (fun x => x.agent_session_id == sid && x.user_id == uid)
        = some r →
      (delete_session db uid sid rf).1 = .ok 204 ∧
      ∀ x ∈ (delete_session db uid sid rf).2, x.rowId ≠ r.rowId) ∧
    (db.find? (fun x => x.agent_session_id == sid && x.user_id == uid)
        = none →
      delete_session db uid sid rf =
        (.error (.httpExc 404 "Session not found".data), db)) := by
  constructor
  · intro r hr
    constructor
    · simp [delete_session, hr]
    · intro x hx
      simp only [delete_session, hr] at hx
      simpa using (List.mem_filter.mp hx).2
  · intro h
    simp [delete_session, h]

/-- C8 witness: the theorem applied to a one-row store, in both the owned
(remote failure swallowed) and the unowned case. -/
theorem c8_delete_session_witness :
    (delete_session
        [{ rowId := 5, user_id := 2, agent_session_id := "abc".data,
           title := none, last_activity := 3 }] 2 "abc".data true).1
      = .ok 204 ∧
    delete_session
        [{ rowId := 5, user_id := 2, agent_session_id := "abc".data,
           title := none, last_activity := 3 }] 9 "abc".data true =
      (.error (.httpExc 404 "Session not found".data),
       [{ rowId := 5, user_id := 2, agent_session_id := "abc".data,
          title := none, last_activity := 3 }]) := by
  constructor
  · exact ((c8_delete_session
      [{ rowId := 5, user_id := 2, agent_session_id := "abc".data,
         title := none, last_activity := 3 }] 2 "abc".data true).1
      { rowId := 5, user_id := 2, agent_session_id := "abc".data,
        title := none, last_activity := 3 } (by rfl)).1
  · exact (c8_delete_session
      [{ rowId := 5, user_id := 2, agent_session_id := "abc".data,
         title := none, last_activity := 3 }] 9 "abc".data true).2 (by rfl)

/-! ### C9 -/

/-- The row created by the first save. -/
def c9row1 : CatalogRow :=
  { id := 1, user_id := 7, catalog_item_id := "p1".data,
    catalog_name := "property".data, agent_name := none,
    source_message_id := none, session_id := none }

/-- The duplicate row created by the second save. -/
def c9row2 : CatalogRow :=
  { id := 2, user_id := 7, catalog_item_id := "p1".data,
    catalog_name := "property".data, agent_name := none,
    source_message_id := none, session_id := none }

/-- C9: two catalog saves with the identical
`(user, catalog_item_id, catalog_name)` triple both succeed — the schema
declares no unique constraint on the triple, so no `IntegrityError` fires,
the 409 branch is dead code, and the second save inserts a duplicate row
(201) next to the unaltered first row. -/
theorem c9_duplicate_catalog_bug :
    create_catalog_item [] 1 7 "p1".data "property".data none none none =
      (.ok c9row1, [c9row1], 2) ∧
    create_catalog_item [c9row1] 2 7 "p1".data "property".data none none none =
      (.ok c9row2, [c9row1, c9row2], 3) ∧
    c9row1.user_id = c9row2.user_id ∧
    c9row1.catalog_item_id = c9row2.catalog_item_id ∧
    c9row1.catalog_name = c9row2.catalog_name := by
  exact ⟨rfl, rfl, rfl, rfl, rfl⟩

/-! ### C10 -/

/-- C10: a chat request whose message trims to empty and whose session id
resolves to no stored row still creates and persists a new local session
row (remote id, empty-derived title) before the validation rejects the
request — the rejection is not atomic with respect to session state. -/
theorem c10_session_persisted_on_reject (w : ChatWorld) (uid : Nat)
    (msg : Str) (sid : Option Str)
    (hemp : pyStrip msg = [])
    (hsid : resolveSession w.db uid sid = none) :
    (chat w uid msg sid).1 =
      .error (.httpExc 500
        "Error processing request: 400: Message cannot be empty".data) ∧
    (chat w uid msg sid).2.1 =
      w.db ++ [{ rowId := w.nextRowId, user_id := uid,
                 agent_session_id := w.remoteNewId, title := none,
                 last_activity := w.now }] := by
  have htitle : deriveTitle msg = none := by
    simp [deriveTitle, hemp]
  constructor
  · simp only [chat, hsid]
    simp only [chatTurn, hemp, wrap500]
    rfl
  · simp only [chat, hsid, htitle]

/-! ### C2 -/

/-- A looked-up key bears witness that the dictionary is non-empty. -/
theorem PyDict.lookup_ne_nil {d : PyDict} {k : Str} {v : PyVal}
    (h : d.lookup k = some v) : d ≠ PyDict.nil := by
  intro hd
  subst hd
  cases h

/-- A `send_task` function-call part emits exactly the delegation
announcement and arms the suppress flag. -/
theorem partStep_sendTask (cd fcd ad : PyDict) (skip : Bool)
    (rv : Option PyVal)
    (hc1 : cd.lookup "function_call".data = some (.vdict fcd))
    (hc2 : fcd.lookup "name".data = some (.vstr "send_task".data))
    (hc3 : fcd.lookup "args".data = some (.vdict ad)) :
    partStep (.vdict cd) skip rv = .ok ([delegationMsg ad], true, rv) := by
  have hne : fcd ≠ PyDict.nil := PyDict.lookup_ne_nil hc2
  simp [partStep, hc1, hc2, hc3, optTruthy, pyTruthy, hne, pyEqV,
    delegationMsg]

/-- The artifact-derived follow-up message for a suppressed delegation
response. -/
def artifactCar (ats : Str) : Msg :=
  create_agent_response
    (if optTruthy (extract_json_from_text ats) then
      jsonDumps2 ((extract_json_from_text ats).getD .vnull)
    else ats)
    (extract_json_from_text ats) none

/-- A suppressed function-response part either raises, or emits nothing,
or emits one artifact-derived message — never anything else — and always
clears the flag on success. -/
theorem partStep_suppressed (rd : PyDict) (frV : PyVal) (rv : Option PyVal)
    (hr1 : rd.lookup "function_call".data = none)
    (hr2 : rd.lookup "function_response".data = some frV)
    (hr3 : pyTruthy frV = true) :
    (∃ e, partStep (.vdict rd) true rv = .error e) ∨
    (∃ rv2, partStep (.vdict rd) true rv = .ok ([], false, rv2)) ∨
    (∃ ats rv2, partStep (.vdict rd) true rv =
      .ok ([artifactCar ats], false, rv2)) := by
  have hbase : partStep (.vdict rd) true rv = (do
      let frV2 := (rd.lookup "function_response".data).getD (.vdict .nil)
      let (taskObj, resVar2) ← computeTaskObj frV2 rv
      match taskObj with
      | some t =>
        if pyTruthy t then do
          let atO ← extract_artifacts_from_task t
          match atO with
          | some atV =>
            if pyTruthy atV then do
              let ats ← asStr atV
              let sd := extract_json_from_text ats
              Except.ok ([create_agent_response
                (if optTruthy sd then jsonDumps2 (sd.getD .vnull) else ats)
                sd none], false, resVar2)
            else .ok ([], false, resVar2)
          | none => .ok ([], false, resVar2)
        else .ok ([], false, resVar2)
      | none => .ok ([], false, resVar2)) := by
    simp [partStep, hr1, hr2, hr3, optTruthy]
  rw [hr2] at hbase
  cases hct : computeTaskObj frV rv with
  | error e =>
    left
    exact ⟨e, by simp [hbase, hct, exceptBindErr]⟩
  | ok pr =>
    obtain ⟨taskObj, rv2⟩ := pr
    cases taskObj with
    | none =>
      right; left
      exact ⟨rv2, by simp [hbase, hct, exceptBindOk]⟩
    | some tv =>
      by_cases htv : pyTruthy tv = true
      · cases hat : extract_artifacts_from_task tv with
        | error e =>
          left
          exact ⟨e, by simp [hbase, hct, exceptBindOk, exceptBindErr, htv, hat]⟩
        | ok atO =>
          cases atO with
          | none =>
            right; left
            exact ⟨rv2, by simp [hbase, hct, exceptBindOk, htv, hat]⟩
          | some atV =>
            by_cases hatv : pyTruthy atV = true
            · cases has : asStr atV with
              | error e =>
                left
                exact ⟨e, by simp [hbase, hct, exceptBindOk, exceptBindErr, htv, hat, hatv, has]⟩
              | ok ats =>
                right; right
                refine ⟨ats, rv2, ?_⟩
                simp [hbase, hct, exceptBindOk, htv, hat, hatv, has,
                  artifactCar]
            · right; left
              refine ⟨rv2, ?_⟩
              simp [hbase, hct, exceptBindOk, htv, hat, hatv]
      · right; left
        refine ⟨rv2, ?_⟩
        simp [hbase, hct, exceptBindOk, htv]

/-- A concrete delegation call part. -/
def c2callPart : PyDict :=
  .cons "function_call".data
    (.vdict (.cons "name".data (.vstr "send_task".data)
      (.cons "args".data
        (.vdict (.cons "agent_name".data (.vstr "PropertyAgent".data)
          (.cons "task".data (.vstr "find flats".data) .nil))) .nil))) .nil

/-- A function-response whose `response` field is not a mapping, which
sends the misindented nesting probe to the unbound `result` local. -/
def c2badResp : PyDict :=
  .cons "function_response".data
    (.vdict (.cons "response".data (.vstr "x".data) .nil)) .nil

/-- C2 counterexample: an event whose parts are a `send_task` delegation
call immediately followed by its (truthy) function-response raises
`UnboundLocalError` — the misindented `isinstance(result, dict)` test runs
although `result` was never bound because `response` is not a mapping —
so the processor emits no delegation announcement at all for this event,
refuting the claim's universal "exactly one". -/
theorem c2_delegation_counterexample :
    optTruthy (c2callPart.lookup "function_call".data) = true ∧
    optTruthy (c2badResp.lookup "function_response".data) = true ∧
    process_agent_response
        (mkPartsEvent [.vdict c2callPart, .vdict c2badResp]) =
      .error (.unboundLocal "result".data) := by
  exact ⟨rfl, rfl, rfl⟩

/-- The two-part loop reduces to the suppressed-response step prefixed by
the delegation announcement. -/
theorem processParts_delegPair (cd fcd ad rd : PyDict)
    (hc1 : cd.lookup "function_call".data = some (.vdict fcd))
    (hc2 : fcd.lookup "name".data = some (.vstr "send_task".data))
    (hc3 : fcd.lookup "args".data = some (.vdict ad)) :
    processParts [.vdict cd, .vdict rd] false none =
      (partStep (.vdict rd) true none) >>= fun d =>
        pure (delegationMsg ad :: d.1) := by
  simp only [processParts, partStep_sendTask cd fcd ad false none hc1 hc2 hc3,
    exceptBindOk]
  cases h2 : partStep (.vdict rd) true none with
  | error e => rfl
  | ok d => simp [h2, exceptBindOk]

/-- C2 amended: for an event whose parts are a `send_task` delegation call
immediately followed by its (truthy) function-response, whenever the
processor completes without raising (the misindented response-nesting
probe can raise `UnboundLocalError`, see the counterexample) it emits the
delegation announcement first, at most one follow-up message, and the
only possible follow-up is the artifact-derived message — never the raw
function-response envelope. -/
theorem c2_delegation_amended (cd fcd ad rd : PyDict) (frV : PyVal)
    (msgs : List Msg)
    (hc1 : cd.lookup "function_call".data = some (.vdict fcd))
    (hc2 : fcd.lookup "name".data = some (.vstr "send_task".data))
    (hc3 : fcd.lookup "args".data = some (.vdict ad))
    (hr1 : rd.lookup "function_call".data = none)
    (hr2 : rd.lookup "function_response".data = some frV)
    (hr3 : pyTruthy frV = true)
    (hok : process_agent_response (mkPartsEvent [.vdict cd, .vdict rd]) =
      .ok msgs) :
    ∃ rest, msgs = delegationMsg ad :: rest ∧ rest.length ≤ 1 ∧
      ∀ m ∈ rest, ∃ ats : Str, m = artifactCar ats := by
  have h0 : process_agent_response (mkPartsEvent [.vdict cd, .vdict rd]) =
      (processParts [.vdict cd, .vdict rd] false none >>=
        fun rest => pure ([] ++ rest)) := rfl
  rw [h0, processParts_delegPair cd fcd ad rd hc1 hc2 hc3] at hok
  rcases partStep_suppressed rd frV none hr1 hr2 hr3 with
    ⟨e, he⟩ | ⟨rv2, he⟩ | ⟨ats, rv2, he⟩
  · rw [he] at hok
    exact Except.noConfusion hok
  · rw [he] at hok
    simp only [exceptBindOk] at hok
    refine ⟨[], ?_, by simp, by simp⟩
    have := Except.ok.inj hok
    simp at this
    exact this.symm
  · rw [he] at hok
    simp only [exceptBindOk] at hok
    refine ⟨[artifactCar ats], ?_, by simp, ?_⟩
    · have := Except.ok.inj hok
      simp at this
      exact this.symm
    · intro m hm
      simp at hm
      exact ⟨ats, hm⟩

/-- A well-formed delegation response Task carrying a properties artifact
text. -/
def c2goodResp : PyDict :=
  .cons "function_response".data
    (.vdict (.cons "response".data
      (.vdict (.cons "result".data
        (.vdict (.cons "artifacts".data
          (.vlist (.cons (.vdict
            (.cons "name".data (.vstr "prop".data)
              (.cons "parts".data
                (.vlist (.cons (.vdict
                  (.cons "kind".data (.vstr "text".data)
                    (.cons "text".data
                      (.vstr "\x7b\"properties\": []\x7d".data) .nil)))
                  .nil)) .nil)))
            .nil)) .nil)) .nil)) .nil)) .nil

/-- C2 witness: the amended theorem at the concrete good delegation pair
(the processor answer is the announcement plus one artifact message). -/
theorem c2_delegation_amended_witness :
    ∃ rest,
      [delegationMsg (.cons "agent_name".data (.vstr "PropertyAgent".data)
          (.cons "task".data (.vstr "find flats".data) .nil)),
        artifactCar "\x7b\"properties\": []\x7d".data] =
        delegationMsg (.cons "agent_name".data (.vstr "PropertyAgent".data)
          (.cons "task".data (.vstr "find flats".data) .nil)) :: rest ∧
      rest.length ≤ 1 ∧ ∀ m ∈ rest, ∃ ats : Str, m = artifactCar ats :=
  c2_delegation_amended c2callPart
    (.cons "name".data (.vstr "send_task".data)
      (.cons "args".data
        (.vdict (.cons "agent_name".data (.vstr "PropertyAgent".data)
          (.cons "task".data (.vstr "find flats".data) .nil))) .nil))
    (.cons "agent_name".data (.vstr "PropertyAgent".data)
      (.cons "task".data (.vstr "find flats".data) .nil))
    c2goodResp
    (.vdict (.cons "response".data
      (.vdict (.cons "result".data
        (.vdict (.cons "artifacts".data
          (.vlist (.cons (.vdict
            (.cons "name".data (.vstr "prop".data)
              (.cons "parts".data
                (.vlist (.cons (.vdict
                  (.cons "kind".data (.vstr "text".data)
                    (.cons "text".data
                      (.vstr "\x7b\"properties\": []\x7d".data) .nil)))
                  .nil)) .nil)))
            .nil)) .nil)) .nil)) .nil))
    _ (by rfl) (by rfl) (by rfl) (by rfl) (by rfl) (by rfl) (by rfl)

/-! ### C6 -/

/-- Markdown-fenced JSON text as the remote model returns it. -/
def c6fencedText : Str := "```json\n\x7b\"properties\": []\x7d\n```".data

/-- A stored model-role event whose text is the fenced JSON. -/
def c6infoEvent : PyVal :=
  .vdict (.cons "content".data
    (.vdict (.cons "parts".data
      (.vlist (.cons (.vdict (.cons "text".data (.vstr c6fencedText) .nil))
        .nil))
      (.cons "role".data (.vstr "model".data) .nil)))
    (.cons "author".data (.vstr "agent".data) .nil))

/-- The stored session log holding that single event. -/
def c6info : PyVal :=
  .vdict (.cons "events".data (.vlist (.cons c6infoEvent .nil)) .nil)

/-- The reconstructed message. -/
def c6msg : Msg :=
  { role := "assistant".data, content := c6fencedText,
    metadata := some (.vdict (.cons "author".data (.vstr "agent".data) .nil)),
    structured_data := some propsObj, timestamp := none }

/-- C6 counterexample: the History Reconstructor keeps the original
Markdown-fenced text as `content` while attaching the extracted
`structured_data`, so parsing the content as JSON fails entirely — the
round-trip law does not hold for history-reconstructed messages. -/
theorem c6_roundtrip_counterexample :
    parse_session_info_to_messages c6info = .ok [c6msg] ∧
    c6msg.structured_data = some propsObj ∧
    jsonParse c6msg.content = none := by
  exact ⟨rfl, rfl, rfl⟩

/-- The round-trip invariant of one message: structured data, when
present, is serialized verbatim into the content. -/
def sdInv (m : Msg) : Prop :=
  ∀ sd, m.structured_data = some sd → m.content = jsonDumps2 sd

/-- A message without structured data satisfies the invariant vacuously. -/
theorem sdInv_none (m : Msg) (h : m.structured_data = none) : sdInv m := by
  intro sd hs
  rw [h] at hs
  cases hs

/-- The `create_agent_response` call pattern used everywhere in the live
pipeline satisfies the invariant. -/
theorem car_sdInv (x : Str) (sd : Option PyVal) :
    sdInv (create_agent_response
      (if optTruthy sd then jsonDumps2 (sd.getD .vnull) else x) sd none) := by
  intro sd' h
  by_cases hs : optTruthy sd = true
  · cases sd with
    | none => simp [optTruthy] at hs
    | some v =>
      simp only [create_agent_response, hs] at h ⊢
      simp only [if_pos trivial] at h
      have hv : v = sd' := by
        simpa using h
      simp [hv]
  · simp only [create_agent_response] at h
    rw [if_neg hs] at h
    cases h

/-- Every message one part emits satisfies the invariant. -/
theorem partStep_sdInv (p : PyVal) (skip : Bool) (rv : Option PyVal)
    (out : List Msg × Bool × Option PyVal)
    (h : partStep p skip rv = .ok out) :
    ∀ m ∈ out.1, sdInv m := by
  cases p with
  | vdict pd =>
    simp only [partStep] at h
    by_cases hfc : optTruthy (pd.lookup "function_call".data) = true
    · rw [if_pos hfc] at h
      cases hv : (pd.lookup "function_call".data).getD .vnull with
      | vdict fcd =>
        rw [hv] at h
        dsimp only at h
        by_cases hst : pyEqV ((fcd.lookup "name".data).getD (.vstr []))
            (.vstr "send_task".data) = true
        · rw [if_pos hst] at h
          cases ha : (fcd.lookup "args".data).getD (.vdict .nil) with
          | vdict ad =>
            rw [ha] at h
            have := Except.ok.inj h
            subst this
            intro m hm
            simp at hm
            subst hm
            exact sdInv_none _ rfl
          | vnull => rw [ha] at h; cases h
          | vbool b => rw [ha] at h; cases h
          | vint n => rw [ha] at h; cases h
          | vstr s => rw [ha] at h; cases h
          | vlist a => rw [ha] at h; cases h
        · rw [if_neg hst] at h
          cases hn : (fcd.lookup "name".data).getD (.vstr []) with
          | vstr ns =>
            rw [hn] at h
            have := Except.ok.inj h
            subst this
            intro m hm
            simp at hm
            subst hm
            exact sdInv_none _ rfl
          | vnull => rw [hn] at h; cases h
          | vbool b => rw [hn] at h; cases h
          | vint n => rw [hn] at h; cases h
          | vlist a => rw [hn] at h; cases h
          | vdict d => rw [hn] at h; cases h
      | vnull => rw [hv] at h; cases h
      | vbool b => rw [hv] at h; cases h
      | vint n => rw [hv] at h; cases h
      | vstr s => rw [hv] at h; cases h
      | vlist a => rw [hv] at h; cases h
    · rw [if_neg hfc] at h
      by_cases hfr : optTruthy (pd.lookup "function_response".data) = true
      · rw [if_pos hfr] at h
        by_cases hskip : skip = true
        · rw [if_pos hskip] at h
          cases hct : computeTaskObj
              ((pd.lookup "function_response".data).getD (.vdict .nil)) rv with
          | error e =>
            rw [hct] at h
            cases h
          | ok pr =>
            obtain ⟨taskObj, rv2⟩ := pr
            rw [hct] at h
            simp only [exceptBindOk] at h
            cases taskObj with
            | none =>
              have := Except.ok.inj h
              subst this
              intro m hm
              simp at hm
            | some tv =>
              dsimp only at h
              by_cases htv : pyTruthy tv = true
              · rw [if_pos htv] at h
                cases hat : extract_artifacts_from_task tv with
                | error e => rw [hat] at h; cases h
                | ok atO =>
                  rw [hat] at h
                  simp only [exceptBindOk] at h
                  cases atO with
                  | none =>
                    have := Except.ok.inj h
                    subst this
                    intro m hm
                    simp at hm
                  | some atV =>
                    dsimp only at h
                    by_cases hatv : pyTruthy atV = true
                    · rw [if_pos hatv] at h
                      cases has : asStr atV with
                      | error e => rw [has] at h; cases h
                      | ok ats =>
                        rw [has] at h
                        simp only [exceptBindOk] at h
                        have := Except.ok.inj h
                        subst this
                        intro m hm
                        simp at hm
                        subst hm
                        exact car_sdInv ats (extract_json_from_text ats)
                    · rw [if_neg hatv] at h
                      have := Except.ok.inj h
                      subst this
                      intro m hm
                      simp at hm
              · rw [if_neg htv] at h
                have := Except.ok.inj h
                subst this
                intro m hm
                simp at hm
        · rw [if_neg hskip] at h
          have := Except.ok.inj h
          subst this
          intro m hm
          simp at hm
      · rw [if_neg hfr] at h
        by_cases htx : optTruthy (pd.lookup "text".data) = true
        · rw [if_pos htx] at h
          cases hts : asStr ((pd.lookup "text".data).getD (.vstr [])) with
          | error e => rw [hts] at h; cases h
          | ok tcs =>
            rw [hts] at h
            simp only [exceptBindOk] at h
            by_cases hne : pyStrip tcs ≠ ([] : Str)
            · rw [if_pos hne] at h
              have := Except.ok.inj h
              subst this
              intro m hm
              simp at hm
              subst hm
              exact car_sdInv tcs _
            · rw [if_neg hne] at h
              have := Except.ok.inj h
              subst this
              intro m hm
              simp at hm
        · rw [if_neg htx] at h
          have := Except.ok.inj h
          subst this
          intro m hm
          simp at hm
          subst hm
          exact sdInv_none _ rfl
  | vnull => cases h
  | vbool b => cases h
  | vint n => cases h
  | vstr s => cases h
  | vlist a => cases h

/-- Every message the parts loop emits satisfies the invariant. -/
theorem processParts_sdInv (ps : List PyVal) :
    ∀ skip rv msgs, processParts ps skip rv = .ok msgs →
      ∀ m ∈ msgs, sdInv m := by
  induction ps with
  | nil =>
    intro s r msgs h m hm
    have := Except.ok.inj h
    subst this
    simp at hm
  | cons p rest ih =>
    intro s r msgs h m hm
    simp only [processParts] at h
    cases hp : partStep p s r with
    | error e =>
      rw [hp] at h
      cases h
    | ok d =>
      obtain ⟨ms, s2, r2⟩ := d
      rw [hp] at h
      simp only [exceptBindOk] at h
      cases hrest : processParts rest s2 r2 with
      | error e => rw [hrest] at h; cases h
      | ok more =>
        rw [hrest] at h
        simp only [exceptBindOk] at h
        have := Except.ok.inj h
        subst this
        rcases List.mem_append.mp hm with hl | hr
        · exact partStep_sdInv p s r (ms, s2, r2) hp m hl
        · exact ih s2 r2 more hrest m hr

/-- Every artifact-head message satisfies the invariant. -/
theorem artifactHeadMsgs_sdInv (artO : Option Str) :
    ∀ m ∈ artifactHeadMsgs artO, sdInv m := by
  cases artO with
  | none => intro m hm; simp [artifactHeadMsgs] at hm
  | some a =>
    by_cases ha : a ≠ ([] : Str)
    · intro m hm
      simp only [artifactHeadMsgs, if_pos ha] at hm
      simp at hm
      subst hm
      exact car_sdInv a _
    · intro m hm
      simp only [artifactHeadMsgs, if_neg ha] at hm
      simp at hm

/-- C6 amended: every message the Response Processor (live chat pipeline)
emits with a `structured_data` field has a content that is exactly
`json.dumps(structured_data, indent=2)` — the machine-readable and
human-readable views agree; history-reconstructed messages instead keep
the original (possibly Markdown-fenced) text as content, per the
counterexample. -/
theorem c6_roundtrip_amended (event : PyDict) (msgs : List Msg)
    (hok : process_agent_response event = .ok msgs) :
    ∀ m ∈ msgs, ∀ sd, m.structured_data = some sd →
      m.content = jsonDumps2 sd := by
  intro m hm
  suffices h : sdInv m by exact h
  cases hart : extract_text_from_artifacts event with
  | error e =>
    rw [show process_agent_response event =
      (extract_text_from_artifacts event >>= fun artO =>
        processAgentTail event artO) from rfl, hart] at hok
    cases hok
  | ok artO =>
    rw [show process_agent_response event =
      (extract_text_from_artifacts event >>= fun artO =>
        processAgentTail event artO) from rfl, hart] at hok
    simp only [exceptBindOk] at hok
    unfold processAgentTail at hok
    cases hcv : (event.lookup "content".data).getD (.vdict .nil) with
    | vdict cd =>
      rw [hcv] at hok
      dsimp only at hok
      by_cases hpt : pyTruthy ((cd.lookup "parts".data).getD (.vlist .nil))
          = true
      · rw [if_neg (by simp [hpt])] at hok
        cases hpv : (cd.lookup "parts".data).getD (.vlist .nil) with
        | vlist pa =>
          rw [hpv] at hok
          dsimp only at hok
          cases hpp : processParts pa.toList false none with
          | error e => rw [hpp] at hok; cases hok
          | ok rest =>
            rw [hpp] at hok
            simp only [exceptBindOk] at hok
            have := Except.ok.inj hok
            subst this
            rcases List.mem_append.mp hm with hl | hr
            · exact artifactHeadMsgs_sdInv artO m hl
            · exact processParts_sdInv pa.toList false none rest hpp m hr
        | vnull => rw [hpv] at hok; cases hok
        | vbool b => rw [hpv] at hok; cases hok
        | vint n => rw [hpv] at hok; cases hok
        | vstr s => rw [hpv] at hok; cases hok
        | vdict d => rw [hpv] at hok; cases hok
      · rw [if_pos (by simp [hpt])] at hok
        have := Except.ok.inj hok
        subst this
        exact artifactHeadMsgs_sdInv artO m hm
    | vnull => rw [hcv] at hok; cases hok
    | vbool b => rw [hcv] at hok; cases hok
    | vint n => rw [hcv] at hok; cases hok
    | vstr s => rw [hcv] at hok; cases hok
    | vlist a => rw [hcv] at hok; cases hok

/-- C6 witness: the amended theorem at a concrete pure-JSON text event. -/
theorem c6_roundtrip_amended_witness :
    (create_agent_response (jsonDumps2 propsObj) (some propsObj) none).content
      = jsonDumps2 propsObj :=
  c6_roundtrip_amended (textEvent "\x7b\"properties\": []\x7d".data)
    [create_agent_response (jsonDumps2 propsObj) (some propsObj) none]
    (by rfl)
    (create_agent_response (jsonDumps2 propsObj) (some propsObj) none)
    (List.mem_singleton.mpr rfl) propsObj (by rfl)

/-! ### C3 -/

/-- Chat world whose stream yields exactly one short plain-text part. -/
def c3world : ChatWorld :=
  { db := [], nextRowId := 1, remoteNewId := "s1".data,
    events := [.asDict (textEvent "hi".data)],
    hasGetSessionState := false, sessionState := .ok .vnull, now := 0 }

/-- C3 counterexample: a turn whose stream yields only one 2-character
plain-text part (no metadata, no structured data on the part) returns
exactly that message — the processor attaches default metadata, the filter
therefore keeps it, and the "No response from agent" placeholder never
appears, contradicting the claim that the final list contains it. -/
theorem c3_aggregator_counterexample :
    (chat c3world 1 "find flats".data none).1 =
      .ok ([{ role := "assistant".data, content := "hi".data,
              metadata := some agentTitle, structured_data := none,
              timestamp := none }], "s1".data) ∧
    "hi".data ≠ "No response from agent".data := by
  exact ⟨rfl, by decide⟩

/-- A short plain text part that the pipeline treats as ordinary prose. -/
def shortTextOk (t : Str) : Prop :=
  pyStrip t ≠ ([] : Str) ∧ t.length < 10 ∧
  extract_json_from_text t = none ∧
  pyStartsWith "🤖".data t = false ∧ pyStartsWith "🛠️".data t = false

/-- World over a list of plain-text stream events. -/
def mkTextWorld (ts : List Str) : ChatWorld :=
  { db := [], nextRowId := 1, remoteNewId := "s1".data,
    events := ts.map fun t => .asDict (textEvent t),
    hasGetSessionState := false, sessionState := .ok .vnull, now := 0 }

/-- Processing one plain text event yields exactly one default-metadata
message carrying the text. -/
theorem process_textEvent (t : Str) (h1 : pyStrip t ≠ ([] : Str))
    (h3 : extract_json_from_text t = none) :
    process_agent_response (textEvent t) =
      .ok [create_agent_response t none none] := by
  have ht : t ≠ ([] : Str) := by
    intro h
    exact h1 (by rw [h]; rfl)
  show (processParts (PyArr.ofList [_]).toList false none >>=
      fun rest => pure ([] ++ rest)) = _
  simp only [PyArr.toList_ofList, List.nil_append]
  have hps : partStep (.vdict (.cons "text".data (.vstr t) .nil)) false none =
      .ok ([create_agent_response t none none], false, none) := by
    simp only [partStep,
      show (PyDict.cons "text".data (PyVal.vstr t) .nil).lookup
        "function_call".data = none from rfl,
      show (PyDict.cons "text".data (PyVal.vstr t) .nil).lookup
        "function_response".data = none from rfl,
      show (PyDict.cons "text".data (PyVal.vstr t) .nil).lookup
        "text".data = some (.vstr t) from rfl,
      show (PyDict.cons "text".data (PyVal.vstr t) .nil).hasKey
        "structured_output".data = false from rfl,
      optTruthy, pyTruthy]
    simp [ht, h1, h3, asStr, exceptBindOk]
  simp [processParts, hps, exceptBindOk]

/-- Draining a stream of plain text events appends one message per text. -/
theorem streamLoop_texts (ts : List Str)
    (hall : ∀ t ∈ ts, shortTextOk t) (acc : List Msg) :
    streamLoop (ts.map fun t => .asDict (textEvent t)) acc =
      .ok (acc ++ ts.map fun t => create_agent_response t none none) := by
  induction ts generalizing acc with
  | nil => simp [streamLoop]
  | cons t rest ih =>
    obtain ⟨h1, _, h3, _, _⟩ := hall t (List.mem_cons_self t rest)
    have step : streamLoop
        ((t :: rest).map fun x => EventIn.asDict (textEvent x)) acc =
        (process_agent_response (textEvent t) >>= fun evR =>
          streamLoop (rest.map fun x => EventIn.asDict (textEvent x))
            (((acc ++ []) ++ []) ++ evR)) := rfl
    rw [step, process_textEvent t h1 h3]
    show streamLoop _ (((acc ++ []) ++ []) ++ [create_agent_response t none none]) = _
    rw [ih (fun x hx => hall x (List.mem_cons_of_mem t hx))]
    simp

/-- The filter keeps every metadata-bearing message. -/
theorem chatFilter_metadata_keep (l : List Msg)
    (h : ∀ m ∈ l, m.metadata ≠ none) (b : Bool) : chatFilter l b = l := by
  induction l generalizing b with
  | nil => rfl
  | cons r rest ih =>
    have hr := h r (List.mem_cons_self r rest)
    simp only [chatFilter, if_pos hr]
    rw [ih (fun m hm => h m (List.mem_cons_of_mem r hm)) b]

/-- Default metadata attached to a plain (non-announcement) text. -/
theorem car_plain_metadata (t : Str)
    (h4 : pyStartsWith "🤖".data t = false)
    (h5 : pyStartsWith "🛠️".data t = false) :
    (create_agent_response t none none).metadata = some agentTitle := by
  simp [create_agent_response, optTruthy, h4, h5]

/-- C3 amended: a stream yielding only short (under 10 characters)
plain-text parts produces exactly those texts as default-metadata
messages — a non-empty final list that never contains the placeholder;
the "No response from agent" placeholder appears only when the stream
yields no message at all (here: the empty stream). -/
theorem c3_aggregator_amended (ts : List Str) (hne : ts ≠ [])
    (hall : ∀ t ∈ ts, shortTextOk t) :
    (chat (mkTextWorld ts) 1 "query".data none).1 =
      .ok (ts.map (fun t => create_agent_response t none none), "s1".data) ∧
    ts.map (fun t => create_agent_response t none none) ≠ [] ∧
    (∀ m ∈ ts.map (fun t => create_agent_response t none none),
      m.content ≠ "No response from agent".data) ∧
    (chat (mkTextWorld []) 1 "query".data none).1 =
      .ok ([create_agent_response "No response from agent".data none none],
        "s1".data) := by
  have hmapne : ts.map (fun t => create_agent_response t none none) ≠ [] := by
    intro h
    exact hne (List.map_eq_nil_iff.mp h)
  refine ⟨?_, hmapne, ?_, by rfl⟩
  · have hstream := streamLoop_texts ts hall []
    have hkeep : chatFilter
        (ts.map fun t => create_agent_response t none none) false =
        ts.map fun t => create_agent_response t none none := by
      apply chatFilter_metadata_keep
      intro m hm
      obtain ⟨t, ht, rfl⟩ := List.mem_map.mp hm
      rw [car_plain_metadata t (hall t ht).2.2.2.1 (hall t ht).2.2.2.2]
      exact Option.noConfusion
    have hs2 : streamLoop (ts.map fun t => EventIn.asDict (textEvent t)) [] =
        .ok (ts.map fun t => create_agent_response t none none) := by
      simpa using hstream
    have h0 : (chat (mkTextWorld ts) 1 "query".data none).1 =
        wrap500 (streamLoop (ts.map fun t => EventIn.asDict (textEvent t)) [] >>=
          fun all =>
            pure (chatFinalize false (.ok .vnull) all, "s1".data)) := rfl
    rw [h0, hs2, exceptBindOk]
    have hssb : ∀ l : List Msg, sessionStateBlock false (.ok .vnull) l = l :=
      fun _ => rfl
    have hfin : chatFinalize false (.ok .vnull)
        (ts.map fun t => create_agent_response t none none) =
        ts.map fun t => create_agent_response t none none := by
      simp [chatFinalize, hssb, hkeep, hmapne]
    rw [hfin]
    rfl
  · intro m hm
    obtain ⟨t, ht, rfl⟩ := List.mem_map.mp hm
    show t ≠ _
    intro hcontra
    have := (hall t ht).2.1
    rw [hcontra] at this
    simp at this

/-- C3 witness: the amended theorem at a one-element short-text stream. -/
theorem c3_aggregator_amended_witness :
    (chat (mkTextWorld ["ok".data]) 1 "query".data none).1 =
      .ok (["ok".data].map (fun t => create_agent_response t none none),
        "s1".data) :=
  (c3_aggregator_amended ["ok".data] (by decide)
    (by
      intro t ht
      simp at ht
      subst ht
      exact ⟨by decide, by decide, by rfl, by decide, by decide⟩)).1

/-! ### C1 -/

/-- Prose followed by an unfenced JSON object carrying the
`"properties"` key. -/
def c1Text : Str := "Results: \x7b\"properties\": []\x7d".data

/-- The inner JSON object of `c1Text`. -/
def c1Inner : Str := "\x7b\"properties\": []\x7d".data

/-- C1 counterexample: `c1Text` contains (unfenced, after a prose prefix) a
JSON object whose top level has the `"properties"` key and which
`json.loads` accepts, yet the extractor returns nothing — the whole-text
parse fails on the prose prefix and no code fence exists, so the claimed
recovery for "no fence" wrappings does not hold. -/
theorem c1_extractor_counterexample :
    c1Text = "Results: ".data ++ c1Inner ∧
    jsonParse c1Inner = some propsObj ∧
    extract_json_from_text c1Text = none := by
  exact ⟨rfl, rfl, rfl⟩

/-- Whatever `acceptCandidate` accepts is a mapping with a discriminator
key. -/
theorem acceptCandidate_sound (s : Str) (v : PyVal)
    (h : acceptCandidate s = some v) :
    ∃ d, v = .vdict d ∧ hasDiscriminator d = true := by
  unfold acceptCandidate at h
  split at h
  · rename_i d heq
    split at h
    · exact ⟨d, (Option.some.inj h).symm, by assumption⟩
    · cases h
  · cases h

/-- Whatever the candidate scan accepts is a mapping with a discriminator
key. -/
theorem scanCandidates_sound (ms : List Str) (v : PyVal)
    (h : scanCandidates ms = some v) :
    ∃ d, v = .vdict d ∧ hasDiscriminator d = true := by
  induction ms with
  | nil => cases h
  | cons m rest ih =>
    unfold scanCandidates at h
    split at h
    · split at h
      · split at h
        · rename_i hacc
          exact acceptCandidate_sound _ _ (hacc.trans h)
        · exact ih h
      · exact ih h
    · exact ih h

/-- C1 amended: the extractor returns the `json.loads` mapping whenever the
whole trimmed text is a JSON object holding `"properties"` or `"jobs"`;
and every mapping it ever returns holds one of those keys, so prose
lacking both — brace characters included — yields nothing.  (A JSON object
merely embedded in surrounding prose without a Markdown fence is not
recovered, per the counterexample.) -/
theorem c1_extractor_amended :
    (∀ t d, jsonParse (pyStrip t) = some (.vdict d) →
      hasDiscriminator d = true →
      extract_json_from_text t = some (.vdict d)) ∧
    (∀ t v, extract_json_from_text t = some v →
      ∃ d, v = .vdict d ∧ hasDiscriminator d = true) := by
  constructor
  · intro t d h1 h2
    have hsne : pyStrip t ≠ ([] : Str) := by
      intro h
      rw [h] at h1
      exact Option.noConfusion h1
    have htne : t ≠ ([] : Str) := by
      intro h
      exact hsne (by rw [h]; rfl)
    have hacc : acceptCandidate (pyStrip t) = some (.vdict d) := by
      simp [acceptCandidate, h1, h2]
    simp [extract_json_from_text, htne, hsne, hacc]
  · intro t v h
    unfold extract_json_from_text at h
    split at h
    · cases h
    · split at h
      · rename_i hacc
        exact acceptCandidate_sound _ _ (hacc.trans h)
      · split at h
        · rename_i hscan
          exact scanCandidates_sound _ _ (hscan.trans h)
        · exact scanCandidates_sound _ _ h

/-- Concrete jobs payload for the C1 witness. -/
def c1JobsDict : PyDict :=
  .cons "jobs".data (.vlist (.cons (.vint 1) .nil)) .nil

/-- C1 witness: both halves of the amended theorem applied to a concrete
whole-text jobs object. -/
theorem c1_extractor_amended_witness :
    extract_json_from_text "\x7b\"jobs\": [1]\x7d".data =
      some (.vdict c1JobsDict) ∧
    ∃ d, PyVal.vdict c1JobsDict = .vdict d ∧ hasDiscriminator d = true := by
  refine ⟨?_, ?_⟩
  · exact c1_extractor_amended.1 "\x7b\"jobs\": [1]\x7d".data c1JobsDict
      (by rfl) (by rfl)
  · exact c1_extractor_amended.2 "\x7b\"jobs\": [1]\x7d".data (.vdict c1JobsDict)
      (c1_extractor_amended.1 "\x7b\"jobs\": [1]\x7d".data c1JobsDict
        (by rfl) (by rfl))

/-- C10 witness: a blank message with no session id against an empty store
gains exactly the new row while the request errors. -/
theorem c10_session_persisted_on_reject_witness :
    (chat c5world 2 "  ".data none).2.1 =
      [{ rowId := 1, user_id := 2, agent_session_id := "s1".data,
         title := none, last_activity := 0 }] :=
  (c10_session_persisted_on_reject c5world 2 "  ".data none (by decide)
    (by rfl)).2

end Niblr
